import Mathlib

/-!
Verification development for the archive-graph ETL scripts.

The repository moves relational data (accounts, follower edges, tweets,
likes, media) out of a Postgres-compatible store and into a Neo4j graph.
Two pipeline variants exist:

* `src/scripts/import.py` — the query path: fetch a valid-account-ID set,
  fetch account details, fetch follower relationships in pages of 1000,
  then insert them into Neo4j with per-row MERGE statements inside one
  transaction (commit at the end, rollback on any exception).
* `src/main.py` — the bulk path: export tables to CSV, then LOAD CSV with
  MERGE / ON CREATE SET statements per table.

This file shallowly embeds both pipelines.  External calls that can fail
(the Supabase queries, the Neo4j `tx.run`) are modelled by injected
inputs: the full filtered result table for a query (`Except` carrying the
upstream error when the request errors) and a failure oracle for the
per-row transaction work.
-/

/-- A row of the `followers` table as selected by
`select("account_id, follower_account_id")` in
`fetch_follower_relationships`. -/
structure FollowerRow where
  account_id : String
  follower_account_id : String
deriving DecidableEq, Repr

/-- The fixed page size used by `fetch_follower_relationships`
(`page_size = 1000`). -/
def page_size : Nat := 1000

/-- One page of the filtered `followers` query:
`.range(page * page_size, (page + 1) * page_size - 1)` returns the rows of
the filtered result at offsets `page * page_size` through
`(page + 1) * page_size - 1` inclusive. -/
def fetchPage (rows : List FollowerRow) (page : Nat) : List FollowerRow :=
  (rows.drop (page * page_size)).take page_size

/-- The pagination loop of `fetch_follower_relationships`, starting at a
given page: accumulate `current_batch = fetchPage rows page`; stop when a
page returns fewer than `page_size` rows, otherwise continue with the next
page.  `rows` is the full filtered result set held by the server. -/
def fetchLoop (rows : List FollowerRow) (page : Nat) : List FollowerRow :=
  if h : (fetchPage rows page).length < page_size then fetchPage rows page
  else fetchPage rows page ++ fetchLoop rows (page + 1)
termination_by rows.length - page * page_size
decreasing_by
  simp [fetchPage, page_size] at h ⊢
  omega

/-- Number of range requests issued by the pagination loop of
`fetch_follower_relationships` from a given starting page. -/
def requestCount (rows : List FollowerRow) (page : Nat) : Nat :=
  if h : (fetchPage rows page).length < page_size then 1
  else 1 + requestCount rows (page + 1)
termination_by rows.length - page * page_size
decreasing_by
  simp [fetchPage, page_size] at h ⊢
  omega

/-- A row of the `account` table as returned by `select("account_id")` in
`fetch_valid_account_ids`; `none` models a result row in which the
`account_id` field is absent (the code guards with
`if "account_id" in row`). -/
structure AccountIdRow where
  account_id : Option String
deriving DecidableEq, Repr

/-- The set comprehension of `fetch_valid_account_ids`:
`{row["account_id"] for row in response.data if "account_id" in row}`,
modelled as a deduplicated list. -/
def validIdsOf (rows : List AccountIdRow) : List String :=
  (rows.filterMap (fun r => r.account_id)).dedup

/-- Python exceptions relevant to the scripts: the `APIError` raised by
the postgrest client and the `RuntimeError` the fetch helpers wrap it
into. -/
inductive PyErr where
  | apiError (msg : String)
  | runtimeError (msg : String)
deriving DecidableEq, Repr

/-- Whether an exception is a `RuntimeError`. -/
def PyErr.isRuntimeError : PyErr → Bool
  | .runtimeError _ => true
  | .apiError _ => false

/-- `fetch_valid_account_ids`: executes the `account` table query (whose
outcome is the injected `upstream`) and builds the valid-ID set.  The
function body has no `try`/`except`, so an `APIError` raised by
`.execute()` propagates unwrapped. -/
def fetch_valid_account_ids (upstream : Except String (List AccountIdRow)) :
    Except PyErr (List String) :=
  match upstream with
  | .error e => .error (.apiError e)
  | .ok rows => .ok (validIdsOf rows)

/-- Pagination returns the whole filtered result set: the concatenation of
all pages from `page` onwards is exactly the suffix of the table starting
at offset `page * page_size`. -/
theorem fetchLoop_eq (rows : List FollowerRow) (page : Nat) :
    fetchLoop rows page = rows.drop (page * page_size) := by
  unfold fetchLoop
  by_cases h : (fetchPage rows page).length < page_size
  · simp only [h, dif_pos]
    unfold fetchPage
    apply List.take_of_length_le
    simp [fetchPage, page_size] at h ⊢
    omega
  · simp only [h, dif_neg, not_false_iff]
    rw [fetchLoop_eq rows (page + 1)]
    unfold fetchPage
    rw [Nat.succ_mul, ← List.drop_drop, List.take_append_drop]
termination_by rows.length - page * page_size
decreasing_by
  simp [fetchPage, page_size] at h ⊢
  omega

/-- The loop issues exactly `rows.length / page_size - page + 1` requests
when started at `page`. -/
theorem requestCount_eq (rows : List FollowerRow) (page : Nat) :
    requestCount rows page = rows.length / page_size - page + 1 := by
  unfold requestCount
  by_cases h : (fetchPage rows page).length < page_size
  · simp only [h, dif_pos]
    have hs : rows.length / page_size ≤ page := by
      simp [fetchPage, page_size] at h ⊢
      omega
    omega
  · simp only [h, dif_neg, not_false_iff]
    rw [requestCount_eq rows (page + 1)]
    have hs : page + 1 ≤ rows.length / page_size := by
      simp [fetchPage, page_size] at h ⊢
      omega
    omega
termination_by rows.length - page * page_size
decreasing_by
  simp [fetchPage, page_size] at h ⊢
  omega

/-- The nested `all_profile` object of the joined account-details query
(`select("account_id, username, account_display_name, all_profile(bio, location, avatar_media_url)")`). -/
structure ProfileData where
  bio : Option String
  location : Option String
  avatar_media_url : Option String
deriving DecidableEq, Repr

/-- A row of the joined account-details query; `all_profile` is `none`
when the joined profile is null. -/
structure DetailRow where
  account_id : String
  username : Option String
  account_display_name : Option String
  all_profile : Option ProfileData
deriving DecidableEq, Repr

/-- The per-account detail record stored in the `account_details` dict by
`fetch_account_details`. -/
structure Details where
  username : Option String
  account_display_name : Option String
  bio : Option String
  location : Option String
  avatar_media_url : Option String
deriving DecidableEq, Repr

/-- The `{}` default used by `account_details.get(id, {})` followed by
`.get(...)` on each field: every descriptive field is `None`. -/
def emptyDetails : Details := ⟨none, none, none, none, none⟩

/-- The detail record built from one result row:
`profile_data = row.get("all_profile") or {}`, then field-wise `.get`. -/
def detailsOfRow (r : DetailRow) : Details :=
  ⟨r.username, r.account_display_name,
    (r.all_profile.getD ⟨none, none, none⟩).bio,
    (r.all_profile.getD ⟨none, none, none⟩).location,
    (r.all_profile.getD ⟨none, none, none⟩).avatar_media_url⟩

/-- Python dict assignment `account_details[account_id] = {...}`: replace
the value when the key is present, otherwise append the new entry. -/
def dictInsert (m : List (String × Details)) (k : String) (v : Details) :
    List (String × Details) :=
  if m.any (fun p => p.1 == k) then
    m.map (fun p => if p.1 == k then (k, v) else p)
  else m ++ [(k, v)]

/-- The dict-building loop of `fetch_account_details`. -/
def buildDetails (rows : List DetailRow) : List (String × Details) :=
  rows.foldl (fun m r => dictInsert m r.account_id (detailsOfRow r)) []

/-- Python dict lookup `account_details.get(id)`. -/
def lookupDetails (d : List (String × Details)) (i : String) : Option Details :=
  (d.find? (fun p => p.1 == i)).map (fun p => p.2)

/-- `account_details.get(id, {})` followed by `.get` on each field. -/
def detailsFor (d : List (String × Details)) (i : String) : Details :=
  (lookupDetails d i).getD emptyDetails

/-- `fetch_account_details`: the joined query's outcome is the injected
`upstream`; an `APIError` is wrapped into
`RuntimeError(f"Account details query failed: {str(e)}")`. -/
def fetch_account_details (upstream : Except String (List DetailRow)) :
    Except PyErr (List (String × Details)) :=
  match upstream with
  | .error e => .error (.runtimeError ("Account details query failed: " ++ e))
  | .ok rows => .ok (buildDetails rows)

/-- `fetch_follower_relationships`: the server-side filtered `followers`
table is the injected `upstream`; the pagination loop walks it in pages of
`page_size`; an `APIError` raised by any page request is wrapped into
`RuntimeError(f"Follower query failed: {str(e)}")`. -/
def fetch_follower_relationships (upstream : Except String (List FollowerRow)) :
    Except PyErr (List FollowerRow) :=
  match upstream with
  | .error e => .error (.runtimeError ("Follower query failed: " ++ e))
  | .ok rows => .ok (fetchLoop rows 0)

/-- A `:User` node of the query-path graph: the `id` key plus the five
descriptive properties set by the insert Cypher. -/
structure UserNode where
  id : String
  username : Option String
  account_display_name : Option String
  bio : Option String
  location : Option String
  avatar_media_url : Option String
deriving DecidableEq, Repr

/-- The Neo4j graph state touched by `insert_relationships_into_neo4j`:
`:User` nodes and `FOLLOWED_BY` edges (stored as
(followed id, follower id) pairs; the uniqueness constraint on `:User(id)`
and MERGE semantics keep both lists duplicate-free). -/
structure NeoGraph where
  nodes : List UserNode
  edges : List (String × String)
deriving DecidableEq, Repr

/-- The empty graph. -/
def emptyNeoGraph : NeoGraph := ⟨[], []⟩

/-- The node as it stands after `SET` writes the five descriptive
properties from a detail record. -/
def mkNode (i : String) (dd : Details) : UserNode :=
  ⟨i, dd.username, dd.account_display_name, dd.bio, dd.location,
    dd.avatar_media_url⟩

/-- `MERGE (u:User {id: $i})`: match the node when one with this id
exists, otherwise create it bare (only the id property). -/
def mergeNode (g : NeoGraph) (i : String) : NeoGraph :=
  if g.nodes.any (fun n => n.id == i) then g
  else { g with nodes := g.nodes ++ [⟨i, none, none, none, none, none⟩] }

/-- `SET u.username = ..., u.account_display_name = ..., u.bio = ...,
u.location = ..., u.avatar_media_url = ...`: unconditionally overwrite the
five descriptive properties of every node with the given id. -/
def setNodeProps (g : NeoGraph) (i : String) (dd : Details) : NeoGraph :=
  { g with nodes := g.nodes.map (fun n => if n.id == i then mkNode i dd else n) }

/-- `MERGE (followed)-[:FOLLOWED_BY]->(follower)`: create the edge unless
it already exists between the two matched nodes. -/
def mergeEdge (g : NeoGraph) (a b : String) : NeoGraph :=
  if (a, b) ∈ g.edges then g else { g with edges := g.edges ++ [(a, b)] }

/-- The whole Cypher statement run for one relationship row: merge the
followed node, set its properties, merge the follower node, set its
properties, merge the `FOLLOWED_BY` edge. -/
def processRow (d : List (String × Details)) (g : NeoGraph) (r : FollowerRow) :
    NeoGraph :=
  mergeEdge
    (setNodeProps
      (mergeNode
        (setNodeProps (mergeNode g r.account_id) r.account_id
          (detailsFor d r.account_id))
        r.follower_account_id)
      r.follower_account_id (detailsFor d r.follower_account_id))
    r.account_id r.follower_account_id

/-- The referential-integrity gate: the row is processed unless
`followed_id not in valid_ids or follower_id not in valid_ids`. -/
def okRow (valid : List String) (r : FollowerRow) : Prop :=
  r.account_id ∈ valid ∧ r.follower_account_id ∈ valid

instance (valid : List String) (r : FollowerRow) : Decidable (okRow valid r) := by
  unfold okRow
  infer_instance

/-- The log line printed when a row is skipped. -/
def skipMsg (r : FollowerRow) : String :=
  "Skipping invalid relationship: " ++ r.account_id ++ " -> "
    ++ r.follower_account_id

/-- Outcome of the `for row in relationships` loop inside the transaction:
the staged (uncommitted) graph, the skip log lines printed, and the
exception message when some `tx.run` raised. -/
structure LoopResult where
  staged : NeoGraph
  skipLog : List String
  err : Option String
deriving DecidableEq, Repr

/-- The `for row in relationships` loop of
`insert_relationships_into_neo4j`.  `fails r` injects whether the `tx.run`
for row `r` raises; a raise stops the loop with the error recorded.
Skipped rows print a log line and run no Cypher. -/
def runRows (fails : FollowerRow → Bool) (d : List (String × Details))
    (valid : List String) : List FollowerRow → NeoGraph → LoopResult
  | [], g => ⟨g, [], none⟩
  | r :: rs, g =>
    if okRow valid r then
      if fails r then ⟨g, [], some "transaction failure"⟩
      else runRows fails d valid rs (processRow d g r)
    else
      let s := runRows fails d valid rs g
      ⟨s.staged, skipMsg r :: s.skipLog, s.err⟩

/-- Observable outcome of `insert_relationships_into_neo4j`: the committed
graph state, whether the single `tx.commit()` ran, the error printed by
the `except` branch (if any), and the skip log.  The function always
returns normally: the `except Exception` clause catches every exception
raised during the batch, rolls the transaction back and prints the
error. -/
structure InsertResult where
  graph : NeoGraph
  committed : Bool
  errorReported : Option String
  skipLog : List String
deriving DecidableEq, Repr

/-- `insert_relationships_into_neo4j`: run the per-row loop in one
transaction on graph `g`; commit once at the end when no exception was
raised, otherwise roll back (the committed state stays `g`) and report the
error. -/
def insert_relationships_into_neo4j (fails : FollowerRow → Bool)
    (relationships : List FollowerRow) (valid : List String)
    (d : List (String × Details)) (g : NeoGraph) : InsertResult :=
  match (runRows fails d valid relationships g).err with
  | none => ⟨(runRows fails d valid relationships g).staged, true, none,
      (runRows fails d valid relationships g).skipLog⟩
  | some e => ⟨g, false, some e, (runRows fails d valid relationships g).skipLog⟩

/-- Observable outcome of `main` in `scripts/import.py`. -/
structure RunResult where
  insert : InsertResult
  donePrinted : Bool
deriving DecidableEq, Repr

/-- `main` of `scripts/import.py`: fetch valid IDs, fetch account details,
fetch follower relationships, insert into Neo4j (starting from graph `g`),
then print the final "Done!" message.  An exception from any fetch
propagates and aborts the run before the later steps. -/
def mainRun (uA : Except String (List AccountIdRow))
    (uD : Except String (List DetailRow))
    (uR : Except String (List FollowerRow))
    (fails : FollowerRow → Bool) (g : NeoGraph) : Except PyErr RunResult :=
  match fetch_valid_account_ids uA with
  | .error e => .error e
  | .ok valid =>
    match fetch_account_details uD with
    | .error e => .error e
    | .ok details =>
      match fetch_follower_relationships uR with
      | .error e => .error e
      | .ok relationships =>
        .ok ⟨insert_relationships_into_neo4j fails relationships valid details g,
          true⟩

/-- The effect of the loop on the staged graph when no row fails: the pure
fold of `processRow` over the rows passing the referential gate. -/
def applyRows (d : List (String × Details)) (valid : List String) :
    List FollowerRow → NeoGraph → NeoGraph
  | [], g => g
  | r :: rs, g =>
    if okRow valid r then applyRows d valid rs (processRow d g r)
    else applyRows d valid rs g

/-- The skip log produced by a full pass over the rows: one line per row
rejected by the referential gate, in order. -/
def skipLogOf (valid : List String) (rows : List FollowerRow) : List String :=
  (rows.filter (fun r => !(decide (okRow valid r)))).map skipMsg

/-- Mapping a function that fixes every element of a list is the
identity. -/
theorem list_map_self {α : Type} (l : List α) (f : α → α)
    (h : ∀ x ∈ l, f x = x) : l.map f = l := by
  induction l with
  | nil => rfl
  | cons x xs ih =>
    rw [List.map_cons, h x (List.mem_cons_self x xs),
      ih (fun y hy => h y (List.mem_cons_of_mem x hy))]

/-- `mergeNode` does not touch the edges. -/
theorem mergeNode_edges (g : NeoGraph) (i : String) :
    (mergeNode g i).edges = g.edges := by
  unfold mergeNode
  split <;> rfl

/-- `setNodeProps` does not touch the edges. -/
theorem setNodeProps_edges (g : NeoGraph) (i : String) (dd : Details) :
    (setNodeProps g i dd).edges = g.edges := rfl

/-- `mergeEdge` does not touch the nodes. -/
theorem mergeEdge_nodes (g : NeoGraph) (a b : String) :
    (mergeEdge g a b).nodes = g.nodes := by
  unfold mergeEdge
  split <;> rfl

/-- Edge membership after `mergeEdge`. -/
theorem mergeEdge_mem_edges (g : NeoGraph) (a b : String) (e : String × String) :
    e ∈ (mergeEdge g a b).edges ↔ e ∈ g.edges ∨ e = (a, b) := by
  unfold mergeEdge
  split
  · rename_i hmem
    constructor
    · exact fun h => Or.inl h
    · rintro (h | rfl)
      · exact h
      · exact hmem
  · simp [List.mem_append]

/-- Edge membership after processing one row: exactly the
`(followed, follower)` edge of that row is added. -/
theorem processRow_edges (d : List (String × Details)) (g : NeoGraph)
    (r : FollowerRow) (e : String × String) :
    e ∈ (processRow d g r).edges ↔
      e ∈ g.edges ∨ e = (r.account_id, r.follower_account_id) := by
  unfold processRow
  rw [mergeEdge_mem_edges, setNodeProps_edges, mergeNode_edges,
    setNodeProps_edges, mergeNode_edges]

/-- Edge membership after the full pass: the edges added are exactly those
of rows passing the referential gate. -/
theorem applyRows_edges (d : List (String × Details)) (valid : List String)
    (rows : List FollowerRow) (e : String × String) : ∀ g : NeoGraph,
    (e ∈ (applyRows d valid rows g).edges ↔
      e ∈ g.edges ∨ ∃ r ∈ rows, okRow valid r ∧
        e = (r.account_id, r.follower_account_id)) := by
  induction rows with
  | nil => intro g; simp [applyRows]
  | cons r rs ih =>
    intro g
    unfold applyRows
    split
    · rename_i hok
      rw [ih, processRow_edges]
      simp only [List.exists_mem_cons_iff, hok, true_and]
      tauto
    · rename_i hok
      rw [ih]
      simp only [List.exists_mem_cons_iff]
      have hdead : ¬ (okRow valid r ∧ e = (r.account_id, r.follower_account_id)) :=
        fun hc => hok hc.1
      tauto

/-- The node with a given id is fully determined: it exists and carries
exactly the given detail properties; no other node shares the id. -/
def nodeIs (g : NeoGraph) (i : String) (dd : Details) : Prop :=
  mkNode i dd ∈ g.nodes ∧ ∀ n ∈ g.nodes, n.id = i → n = mkNode i dd

/-- After `mergeNode g i` some node with id `i` exists. -/
theorem mergeNode_exists (g : NeoGraph) (i : String) :
    ∃ n ∈ (mergeNode g i).nodes, n.id = i := by
  unfold mergeNode
  split
  · rename_i h
    obtain ⟨n, hn, hid⟩ := List.any_eq_true.mp h
    exact ⟨n, hn, by simpa using hid⟩
  · exact ⟨⟨i, none, none, none, none, none⟩, by simp, rfl⟩

/-- `setNodeProps g i dd` pins down every node with id `i`. -/
theorem setNodeProps_nodeIs (g : NeoGraph) (i : String) (dd : Details)
    (h : ∃ n ∈ g.nodes, n.id = i) : nodeIs (setNodeProps g i dd) i dd := by
  obtain ⟨n, hn, hid⟩ := h
  constructor
  · refine List.mem_map.mpr ⟨n, hn, ?_⟩
    simp [hid]
  · intro m hm hmi
    obtain ⟨n', hn', hfn'⟩ := List.mem_map.mp hm
    by_cases h' : n'.id = i
    · rw [← hfn']
      simp [h']
    · rw [← hfn'] at hmi
      simp [h'] at hmi

/-- `setNodeProps` on a different id preserves `nodeIs`. -/
theorem setNodeProps_nodeIs_other (g : NeoGraph) (i j : String)
    (dd dd' : Details) (hne : i ≠ j) (h : nodeIs g i dd) :
    nodeIs (setNodeProps g j dd') i dd := by
  obtain ⟨hmem, hall⟩ := h
  constructor
  · refine List.mem_map.mpr ⟨mkNode i dd, hmem, ?_⟩
    simp [mkNode, hne]
  · intro m hm hmi
    obtain ⟨n', hn', hfn'⟩ := List.mem_map.mp hm
    by_cases h' : n'.id = j
    · rw [← hfn'] at hmi
      simp [h', mkNode] at hmi
      exact absurd hmi.symm hne
    · rw [← hfn'] at hmi ⊢
      simp [h'] at hmi ⊢
      exact hall n' hn' hmi

/-- `mergeNode` preserves `nodeIs`. -/
theorem mergeNode_nodeIs (g : NeoGraph) (i j : String) (dd : Details)
    (h : nodeIs g i dd) : nodeIs (mergeNode g j) i dd := by
  obtain ⟨hmem, hall⟩ := h
  unfold mergeNode
  split
  · exact ⟨hmem, hall⟩
  · rename_i hany
    constructor
    · exact List.mem_append.mpr (Or.inl hmem)
    · intro m hm hmi
      rcases List.mem_append.mp hm with h1 | h2
      · exact hall m h1 hmi
      · exfalso
        simp at h2
        subst h2
        apply hany
        refine List.any_eq_true.mpr ⟨mkNode i dd, hmem, ?_⟩
        simp [mkNode]
        simpa [mkNode] using hmi.symm
      
/-- `mergeEdge` preserves `nodeIs`. -/
theorem mergeEdge_nodeIs (g : NeoGraph) (i a b : String) (dd : Details)
    (h : nodeIs g i dd) : nodeIs (mergeEdge g a b) i dd := by
  obtain ⟨hmem, hall⟩ := h
  constructor
  · rw [mergeEdge_nodes]
    exact hmem
  · intro m hm hmi
    rw [mergeEdge_nodes] at hm
    exact hall m hm hmi

/-- Processing a row pins down the node properties of its endpoints (to
the looked-up details) and preserves those of any other pinned-down
node. -/
theorem processRow_nodeIs (d : List (String × Details)) (g : NeoGraph)
    (r : FollowerRow) (i : String)
    (h : r.account_id = i ∨ r.follower_account_id = i ∨
      nodeIs g i (detailsFor d i)) :
    nodeIs (processRow d g r) i (detailsFor d i) := by
  unfold processRow
  by_cases hb : r.follower_account_id = i
  · rw [← hb]
    apply mergeEdge_nodeIs
    apply setNodeProps_nodeIs
    exact mergeNode_exists _ _
  · by_cases ha : r.account_id = i
    · apply mergeEdge_nodeIs
      apply setNodeProps_nodeIs_other _ _ _ _ _ (fun hc => hb hc.symm)
      apply mergeNode_nodeIs
      rw [← ha]
      apply setNodeProps_nodeIs
      exact mergeNode_exists _ _
    · rcases h with h | h | h
      · exact absurd h ha
      · exact absurd h hb
      · apply mergeEdge_nodeIs
        apply setNodeProps_nodeIs_other _ _ _ _ _ (fun hc => hb hc.symm)
        apply mergeNode_nodeIs
        apply setNodeProps_nodeIs_other _ _ _ _ _ (fun hc => ha hc.symm)
        apply mergeNode_nodeIs
        exact h

/-- After the full pass, every endpoint of a processed row is pinned down
to its looked-up details, and pinned-down nodes stay pinned down. -/
theorem applyRows_nodeIs (d : List (String × Details)) (valid : List String)
    (rows : List FollowerRow) (i : String) : ∀ g : NeoGraph,
    (nodeIs g i (detailsFor d i) ∨ ∃ r ∈ rows, okRow valid r ∧
      (r.account_id = i ∨ r.follower_account_id = i)) →
    nodeIs (applyRows d valid rows g) i (detailsFor d i) := by
  induction rows with
  | nil =>
    intro g h
    rcases h with h | h
    · exact h
    · simp at h
  | cons r rs ih =>
    intro g h
    unfold applyRows
    split
    · rename_i hok
      apply ih
      rcases h with h | ⟨r', hr', hok', hend⟩
      · exact Or.inl (processRow_nodeIs _ _ _ _ (Or.inr (Or.inr h)))
      · rcases List.mem_cons.mp hr' with rfl | hr'
        · exact Or.inl (processRow_nodeIs _ _ _ _
            (by rcases hend with h1 | h1
                · exact Or.inl h1
                · exact Or.inr (Or.inl h1)))
        · exact Or.inr ⟨r', hr', hok', hend⟩
    · rename_i hok
      apply ih
      rcases h with h | ⟨r', hr', hok', hend⟩
      · exact Or.inl h
      · rcases List.mem_cons.mp hr' with rfl | hr'
        · exact absurd hok' hok
        · exact Or.inr ⟨r', hr', hok', hend⟩

/-- `mergeNode` is a no-op when a node with the id already exists. -/
theorem mergeNode_noop (g : NeoGraph) (i : String)
    (h : ∃ n ∈ g.nodes, n.id = i) : mergeNode g i = g := by
  obtain ⟨n, hn, hid⟩ := h
  unfold mergeNode
  rw [if_pos]
  exact List.any_eq_true.mpr ⟨n, hn, by simpa using hid⟩

/-- `setNodeProps` is a no-op when every node with the id already carries
exactly the written properties. -/
theorem setNodeProps_noop (g : NeoGraph) (i : String) (dd : Details)
    (h : ∀ n ∈ g.nodes, n.id = i → n = mkNode i dd) :
    setNodeProps g i dd = g := by
  unfold setNodeProps
  have hmap : g.nodes.map (fun n => if n.id == i then mkNode i dd else n)
      = g.nodes := by
    apply list_map_self
    intro n hn
    by_cases h' : n.id = i
    · simp [h', (h n hn h').symm]
    · simp [h']
  rw [hmap]

/-- `mergeEdge` is a no-op when the edge already exists. -/
theorem mergeEdge_noop (g : NeoGraph) (a b : String)
    (h : (a, b) ∈ g.edges) : mergeEdge g a b = g := by
  unfold mergeEdge
  rw [if_pos h]

/-- Processing a row whose endpoints are already pinned down to their
looked-up details, with the edge present, changes nothing. -/
theorem processRow_noop (d : List (String × Details)) (g : NeoGraph)
    (r : FollowerRow)
    (ha : nodeIs g r.account_id (detailsFor d r.account_id))
    (hb : nodeIs g r.follower_account_id (detailsFor d r.follower_account_id))
    (he : (r.account_id, r.follower_account_id) ∈ g.edges) :
    processRow d g r = g := by
  unfold processRow
  rw [mergeNode_noop g r.account_id ⟨mkNode _ _, ha.1, rfl⟩,
    setNodeProps_noop g r.account_id _ ha.2,
    mergeNode_noop g r.follower_account_id ⟨mkNode _ _, hb.1, rfl⟩,
    setNodeProps_noop g r.follower_account_id _ hb.2,
    mergeEdge_noop g _ _ he]

/-- A full pass over rows whose effects are already present changes
nothing. -/
theorem applyRows_noop (d : List (String × Details)) (valid : List String)
    (rows : List FollowerRow) (g : NeoGraph)
    (h : ∀ r ∈ rows, okRow valid r →
      nodeIs g r.account_id (detailsFor d r.account_id) ∧
      nodeIs g r.follower_account_id (detailsFor d r.follower_account_id) ∧
      (r.account_id, r.follower_account_id) ∈ g.edges) :
    applyRows d valid rows g = g := by
  induction rows with
  | nil => rfl
  | cons r rs ih =>
    unfold applyRows
    split
    · rename_i hok
      obtain ⟨h1, h2, h3⟩ := h r (List.mem_cons_self r rs) hok
      rw [processRow_noop d g r h1 h2 h3]
      exact ih (fun x hx => h x (List.mem_cons_of_mem r hx))
    · exact ih (fun x hx => h x (List.mem_cons_of_mem r hx))

/-- A second identical pass over the same rows is the identity. -/
theorem applyRows_idem (d : List (String × Details)) (valid : List String)
    (rows : List FollowerRow) (g : NeoGraph) :
    applyRows d valid rows (applyRows d valid rows g)
      = applyRows d valid rows g := by
  apply applyRows_noop
  intro r hr hok
  refine ⟨?_, ?_, ?_⟩
  · exact applyRows_nodeIs d valid rows _ g (Or.inr ⟨r, hr, hok, Or.inl rfl⟩)
  · exact applyRows_nodeIs d valid rows _ g (Or.inr ⟨r, hr, hok, Or.inr rfl⟩)
  · exact (applyRows_edges d valid rows _ g).mpr (Or.inr ⟨r, hr, hok, rfl⟩)

/-- When no processed row fails, the loop finishes with no error, the
staged graph is the pure fold, and the skip log lists the rejected
rows. -/
theorem runRows_no_fail (fails : FollowerRow → Bool)
    (d : List (String × Details)) (valid : List String)
    (rows : List FollowerRow) : ∀ g : NeoGraph,
    (∀ r ∈ rows, okRow valid r → fails r = false) →
    runRows fails d valid rows g
      = ⟨applyRows d valid rows g, skipLogOf valid rows, none⟩ := by
  induction rows with
  | nil => intro g h; rfl
  | cons r rs ih =>
    intro g h
    have hrs : ∀ x ∈ rs, okRow valid x → fails x = false :=
      fun x hx => h x (List.mem_cons_of_mem r hx)
    by_cases hok : okRow valid r
    · have hf : fails r = false := h r (List.mem_cons_self r rs) hok
      simp [runRows, applyRows, skipLogOf, hok, hf, ih _ hrs]
    · simp [runRows, applyRows, skipLogOf, hok, ih _ hrs]

/-- The loop records an error iff some row passing the referential gate
fails. -/
theorem runRows_err_some_iff (fails : FollowerRow → Bool)
    (d : List (String × Details)) (valid : List String)
    (rows : List FollowerRow) : ∀ g : NeoGraph,
    ((runRows fails d valid rows g).err.isSome ↔
      ∃ r ∈ rows, okRow valid r ∧ fails r = true) := by
  induction rows with
  | nil => intro g; simp [runRows]
  | cons r rs ih =>
    intro g
    by_cases hok : okRow valid r
    · by_cases hf : fails r = true
      · simp [runRows, hok, hf, List.exists_mem_cons_iff]
      · simp [runRows, hok, hf, ih, List.exists_mem_cons_iff]
    · simp [runRows, hok, ih, List.exists_mem_cons_iff]

/-- Rows rejected by the gate appear in the skip log. -/
theorem skipLogOf_mem (valid : List String) (rows : List FollowerRow)
    (r : FollowerRow) (hr : r ∈ rows) (hok : ¬ okRow valid r) :
    skipMsg r ∈ skipLogOf valid rows := by
  unfold skipLogOf
  exact List.mem_map.mpr ⟨r, List.mem_filter.mpr ⟨hr, by simp [hok]⟩, rfl⟩

/-- When no processed row fails, the insert commits exactly the pure fold
and reports no error. -/
theorem insert_no_fail (fails : FollowerRow → Bool) (rows : List FollowerRow)
    (valid : List String) (d : List (String × Details)) (g : NeoGraph)
    (h : ∀ r ∈ rows, okRow valid r → fails r = false) :
    insert_relationships_into_neo4j fails rows valid d g
      = ⟨applyRows d valid rows g, true, none, skipLogOf valid rows⟩ := by
  unfold insert_relationships_into_neo4j
  rw [runRows_no_fail fails d valid rows g h]

/-- When the loop raised, the insert rolls back to the pre-batch graph and
reports the error. -/
theorem insert_fail (fails : FollowerRow → Bool) (rows : List FollowerRow)
    (valid : List String) (d : List (String × Details)) (g : NeoGraph)
    (e : String) (h : (runRows fails d valid rows g).err = some e) :
    insert_relationships_into_neo4j fails rows valid d g
      = ⟨g, false, some e, (runRows fails d valid rows g).skipLog⟩ := by
  unfold insert_relationships_into_neo4j
  rw [h]

/-- C1: starting from an empty graph, a `FOLLOWED_BY` edge `(a, b)` exists
after `insert_relationships_into_neo4j` (with no transaction failure) iff
some fetched relationship row has `account_id = a` and
`follower_account_id = b` with both ids in the valid-ID set; and every row
with an endpoint outside the set is skipped with a log line (and, by the
iff, creates no edge). -/
theorem c1_edge_iff_both_valid (d : List (String × Details))
    (valid : List String) (rows : List FollowerRow) (a b : String) :
    ((a, b) ∈ (insert_relationships_into_neo4j (fun _ => false) rows valid d
        emptyNeoGraph).graph.edges ↔
      ∃ r ∈ rows, r.account_id = a ∧ r.follower_account_id = b ∧
        a ∈ valid ∧ b ∈ valid) ∧
    ∀ r ∈ rows, ¬ okRow valid r →
      skipMsg r ∈ (insert_relationships_into_neo4j (fun _ => false) rows valid
        d emptyNeoGraph).skipLog := by
  rw [insert_no_fail (fun _ => false) rows valid d emptyNeoGraph
    (fun _ _ _ => rfl)]
  constructor
  · rw [applyRows_edges]
    simp only [emptyNeoGraph, List.not_mem_nil, false_or]
    constructor
    · rintro ⟨r, hr, hok, he⟩
      rcases Prod.mk.injEq .. ▸ he with ⟨h1, h2⟩
      exact ⟨r, hr, h1.symm, h2.symm, h1 ▸ hok.1, h2 ▸ hok.2⟩
    · rintro ⟨r, hr, h1, h2, hav, hbv⟩
      exact ⟨r, hr, ⟨h1.symm ▸ hav, h2.symm ▸ hbv⟩, by rw [h1, h2]⟩
  · intro r hr hok
    exact skipLogOf_mem valid rows r hr hok

/-- C1 witness: the spec scenario — valid IDs A, B, C; rows (A, B) and
(B, Z); only the edge A→B is created and the (B, Z) row is logged as
skipped. -/
theorem c1_witness :
    (("A", "B") ∈ (insert_relationships_into_neo4j (fun _ => false)
        [⟨"A", "B"⟩, ⟨"B", "Z"⟩] ["A", "B", "C"] [] emptyNeoGraph).graph.edges
      ↔ ∃ r ∈ [(⟨"A", "B"⟩ : FollowerRow), ⟨"B", "Z"⟩], r.account_id = "A" ∧
          r.follower_account_id = "B" ∧ "A" ∈ ["A", "B", "C"] ∧
          "B" ∈ ["A", "B", "C"]) ∧
    ∀ r ∈ [(⟨"A", "B"⟩ : FollowerRow), ⟨"B", "Z"⟩],
      ¬ okRow ["A", "B", "C"] r →
      skipMsg r ∈ (insert_relationships_into_neo4j (fun _ => false)
        [⟨"A", "B"⟩, ⟨"B", "Z"⟩] ["A", "B", "C"] [] emptyNeoGraph).skipLog :=
  c1_edge_iff_both_valid [] ["A", "B", "C"] [⟨"A", "B"⟩, ⟨"B", "Z"⟩] "A" "B"

/-- C2: if any exception is raised while applying the per-row upserts of a
batch, the whole transaction is rolled back (the committed graph is the
pre-batch graph, so zero relationships of the batch are committed) and the
error is reported; with no exception, the batch is committed exactly once
at the end. -/
theorem c2_rollback_or_commit (fails : FollowerRow → Bool)
    (rows : List FollowerRow) (valid : List String)
    (d : List (String × Details)) (g : NeoGraph) :
    ((∃ r ∈ rows, okRow valid r ∧ fails r = true) →
      (insert_relationships_into_neo4j fails rows valid d g).graph = g ∧
      (insert_relationships_into_neo4j fails rows valid d g).committed
        = false ∧
      (insert_relationships_into_neo4j fails rows valid d g).errorReported
        ≠ none) ∧
    ((∀ r ∈ rows, okRow valid r → fails r = false) →
      (insert_relationships_into_neo4j fails rows valid d g).graph
        = applyRows d valid rows g ∧
      (insert_relationships_into_neo4j fails rows valid d g).committed
        = true ∧
      (insert_relationships_into_neo4j fails rows valid d g).errorReported
        = none) := by
  constructor
  · intro hex
    have hsome := (runRows_err_some_iff fails d valid rows g).mpr hex
    obtain ⟨e, he⟩ := Option.isSome_iff_exists.mp hsome
    rw [insert_fail fails rows valid d g e he]
    exact ⟨rfl, rfl, by simp⟩
  · intro hnone
    rw [insert_no_fail fails rows valid d g hnone]
    exact ⟨rfl, rfl, rfl⟩

/-- C2 witness: one valid row whose `tx.run` raises — the commit never
happens and the graph stays empty; the same row with no failure commits
the edge. -/
theorem c2_witness :
    ((∃ r ∈ [(⟨"A", "B"⟩ : FollowerRow)], okRow ["A", "B"] r ∧
        (fun _ => true) r = true) →
      (insert_relationships_into_neo4j (fun _ => true) [⟨"A", "B"⟩]
        ["A", "B"] [] emptyNeoGraph).graph = emptyNeoGraph ∧
      (insert_relationships_into_neo4j (fun _ => true) [⟨"A", "B"⟩]
        ["A", "B"] [] emptyNeoGraph).committed = false ∧
      (insert_relationships_into_neo4j (fun _ => true) [⟨"A", "B"⟩]
        ["A", "B"] [] emptyNeoGraph).errorReported ≠ none) ∧
    (∃ r ∈ [(⟨"A", "B"⟩ : FollowerRow)], okRow ["A", "B"] r ∧
      (fun _ => true) r = true) := by
  constructor
  · exact (c2_rollback_or_commit (fun _ => true) [⟨"A", "B"⟩] ["A", "B"] []
      emptyNeoGraph).1
  · exact ⟨⟨"A", "B"⟩, List.mem_singleton.mpr rfl, by decide, rfl⟩

/-- C3: the paginated follower fetch returns exactly the unpaginated full
filtered result set, in order and without duplication or loss. -/
theorem c3_pagination_lossless (rows : List FollowerRow) :
    fetch_follower_relationships (.ok rows) = .ok rows := by
  simp only [fetch_follower_relationships, fetchLoop_eq, Nat.zero_mul,
    List.drop_zero]

/-- C4: the pagination loop terminates after exactly
`rows.length / page_size + 1` requests; every page before the last is full
and the loop stops exactly at the first page shorter than `page_size`. -/
theorem c4_pagination_terminates (rows : List FollowerRow) :
    requestCount rows 0 = rows.length / page_size + 1 ∧
    (fetchPage rows (rows.length / page_size)).length < page_size ∧
    ∀ p < rows.length / page_size, (fetchPage rows p).length = page_size := by
  refine ⟨?_, ?_, ?_⟩
  · rw [requestCount_eq, Nat.sub_zero]
  · simp [fetchPage, page_size]
    omega
  · intro p hp
    simp [fetchPage, page_size] at hp ⊢
    omega

/-- C5 counterexample: an upstream error in the valid-ID fetch propagates
as the raw `APIError`; it is not wrapped in a `RuntimeError` (the claim
asserts every fetch failure is RuntimeError-wrapped). -/
theorem c5_counterexample :
    fetch_valid_account_ids (.error "boom")
      = .error (.apiError "boom") ∧
    (PyErr.apiError "boom").isRuntimeError = false :=
  ⟨rfl, rfl⟩

/-- C5 (amended): failures of the account-detail and follower fetches are
wrapped in `RuntimeError` and re-raised; a failure of the valid-ID fetch
propagates unwrapped as the original `APIError`; in every case the error
propagates out of `main`, aborting the run — no fetch failure is swallowed
or lets the run proceed. -/
theorem c5_fetch_errors_abort (e : String)
    (ra : List AccountIdRow) (rd : List DetailRow)
    (uD : Except String (List DetailRow))
    (uR : Except String (List FollowerRow))
    (fails : FollowerRow → Bool) (g : NeoGraph) :
    fetch_account_details (.error e)
      = .error (.runtimeError ("Account details query failed: " ++ e)) ∧
    fetch_follower_relationships (.error e)
      = .error (.runtimeError ("Follower query failed: " ++ e)) ∧
    fetch_valid_account_ids (.error e) = .error (.apiError e) ∧
    mainRun (.error e) uD uR fails g = .error (.apiError e) ∧
    mainRun (.ok ra) (.error e) uR fails g
      = .error (.runtimeError ("Account details query failed: " ++ e)) ∧
    mainRun (.ok ra) (.ok rd) (.error e) fails g
      = .error (.runtimeError ("Follower query failed: " ++ e)) :=
  ⟨rfl, rfl, rfl, rfl, rfl, rfl⟩

/-- C7: when the account-detail lookup misses for an endpoint id of some
processed row, the endpoint node is still merged, carrying `None` for all
five descriptive properties, and the batch raises no error. -/
theorem c7_detail_miss_null_props (d : List (String × Details))
    (valid : List String) (rows : List FollowerRow) (i : String)
    (hmiss : lookupDetails d i = none)
    (hr : ∃ r ∈ rows, okRow valid r ∧
      (r.account_id = i ∨ r.follower_account_id = i)) :
    (mkNode i emptyDetails ∈
        (applyRows d valid rows emptyNeoGraph).nodes ∧
      ∀ n ∈ (applyRows d valid rows emptyNeoGraph).nodes, n.id = i →
        n = mkNode i emptyDetails) ∧
    (runRows (fun _ => false) d valid rows emptyNeoGraph).err = none := by
  have hD : detailsFor d i = emptyDetails := by
    unfold detailsFor
    rw [hmiss]
    rfl
  constructor
  · have := applyRows_nodeIs d valid rows i emptyNeoGraph (Or.inr hr)
    rw [hD] at this
    exact this
  · rw [runRows_no_fail (fun _ => false) d valid rows emptyNeoGraph
      (fun _ _ _ => rfl)]

/-- C7 witness: a single valid row whose followed endpoint has no detail
entry — the node exists with all descriptive properties `None` and the
insert succeeds. -/
theorem c7_witness :
    ((mkNode "A" emptyDetails ∈
        (applyRows [] ["A", "B"] [⟨"A", "B"⟩] emptyNeoGraph).nodes ∧
      ∀ n ∈ (applyRows [] ["A", "B"] [⟨"A", "B"⟩] emptyNeoGraph).nodes,
        n.id = "A" → n = mkNode "A" emptyDetails) ∧
    (runRows (fun _ => false) [] ["A", "B"] [⟨"A", "B"⟩]
      emptyNeoGraph).err = none) :=
  c7_detail_miss_null_props [] ["A", "B"] [⟨"A", "B"⟩] "A" rfl
    ⟨⟨"A", "B"⟩, List.mem_singleton.mpr rfl, by decide, Or.inl rfl⟩

/-- C10: `insert_relationships_into_neo4j` never propagates an exception
raised during the batch: on a loop error it rolls back, reports the error
and returns normally, and `main` therefore always reaches its final
"Done!" print when the three fetches succeed — whatever the transaction
failure oracle does. -/
theorem c10_insert_never_propagates (fails : FollowerRow → Bool)
    (rows : List FollowerRow) (valid : List String)
    (d : List (String × Details)) (g : NeoGraph)
    (ra : List AccountIdRow) (rd : List DetailRow)
    (rr : List FollowerRow) :
    mainRun (.ok ra) (.ok rd) (.ok rr) fails g
      = .ok ⟨insert_relationships_into_neo4j fails (fetchLoop rr 0)
          (validIdsOf ra) (buildDetails rd) g, true⟩ ∧
    ∀ e, (runRows fails d valid rows g).err = some e →
      insert_relationships_into_neo4j fails rows valid d g
        = ⟨g, false, some e, (runRows fails d valid rows g).skipLog⟩ := by
  constructor
  · rfl
  · intro e he
    exact insert_fail fails rows valid d g e he

/-- C10 witness: a run whose only valid row fails — `main` still returns
normally with the done message, the insert reports the rollback. -/
theorem c10_witness :
    (mainRun (.ok []) (.ok []) (.ok []) (fun _ => true) emptyNeoGraph
      = .ok ⟨insert_relationships_into_neo4j (fun _ => true) (fetchLoop [] 0)
          (validIdsOf []) (buildDetails []) emptyNeoGraph, true⟩) ∧
    insert_relationships_into_neo4j (fun _ => true) [⟨"A", "B"⟩] ["A", "B"]
        [] emptyNeoGraph
      = ⟨emptyNeoGraph, false, some "transaction failure",
          (runRows (fun _ => true) [] ["A", "B"] [⟨"A", "B"⟩]
            emptyNeoGraph).skipLog⟩ := by
  constructor
  · exact (c10_insert_never_propagates (fun _ => true) [⟨"A", "B"⟩]
      ["A", "B"] [] emptyNeoGraph [] [] []).1
  · exact (c10_insert_never_propagates (fun _ => true) [⟨"A", "B"⟩]
      ["A", "B"] [] emptyNeoGraph [] [] []).2 "transaction failure" (by decide)

/-- C8: the valid-ID builder returns exactly the deduplicated set of
`account_id` values of the query result: membership holds iff some row
carries the value; the result is duplicate-free; rows lacking the field
are excluded without error (the function still returns normally). -/
theorem c8_valid_id_set (rows : List AccountIdRow) (x : String) :
    (x ∈ validIdsOf rows ↔ ∃ r ∈ rows, r.account_id = some x) ∧
    (validIdsOf rows).Nodup ∧
    fetch_valid_account_ids (.ok rows) = .ok (validIdsOf rows) := by
  refine ⟨?_, List.nodup_dedup _, rfl⟩
  unfold validIdsOf
  rw [List.mem_dedup, List.mem_filterMap]

/-- Cypher `toInteger` applied to a CSV field: null stays null, a
non-numeric string becomes null, a numeric string parses. -/
def toInteger (s : Option String) : Option Int :=
  s.bind (fun v => v.toInt?)

/-- A row of `account.csv` (key column present, other columns possibly
null). -/
structure AccountRowCsv where
  account_id : String
  username : Option String
  created_at : Option String
  created_via : Option String
  account_display_name : Option String
  num_tweets : Option String
  num_following : Option String
  num_followers : Option String
  num_likes : Option String
deriving DecidableEq, Repr

/-- A row of `enriched_tweets.csv`. -/
structure TweetRowCsv where
  tweet_id : String
  full_text : Option String
  created_at : Option String
  retweet_count : Option String
  favorite_count : Option String
  account_id : String
deriving DecidableEq, Repr

/-- A row of `followers.csv`. -/
structure FollowerRowCsv where
  account_id : String
  follower_account_id : String
deriving DecidableEq, Repr

/-- A row of `following.csv`. -/
structure FollowingRowCsv where
  account_id : String
  following_account_id : String
deriving DecidableEq, Repr

/-- A row of `likes.csv`. -/
structure LikeRowCsv where
  account_id : String
  liked_tweet_id : String
deriving DecidableEq, Repr

/-- A row of `tweet_media.csv`. -/
structure MediaRowCsv where
  media_id : String
  tweet_id : String
  media_url : Option String
  media_type : Option String
  width : Option String
  height : Option String
deriving DecidableEq, Repr

/-- An `:Account` node with the properties set `ON CREATE`. -/
structure AccountNode where
  account_id : String
  username : Option String
  created_at : Option String
  created_via : Option String
  account_display_name : Option String
  num_tweets : Option Int
  num_following : Option Int
  num_followers : Option Int
  num_likes : Option Int
deriving DecidableEq, Repr

/-- A `:Tweet` node with the properties set `ON CREATE`. -/
structure TweetNode where
  tweet_id : String
  full_text : Option String
  created_at : Option String
  retweet_count : Option Int
  favorite_count : Option Int
deriving DecidableEq, Repr

/-- A `:Media` node, keyed by `toInteger(row.media_id)`. -/
structure MediaNode where
  media_id : Option Int
  media_url : Option String
  media_type : Option String
  width : Option Int
  height : Option Int
deriving DecidableEq, Repr

/-- The Neo4j graph state touched by `load_data_into_neo4j`: the three
node kinds and the four relationship types, each edge stored by the key
properties of its endpoints. -/
structure BulkGraph where
  accounts : List AccountNode
  tweets : List TweetNode
  media : List MediaNode
  tweeted : List (String × String)
  follows : List (String × String)
  likes : List (String × String)
  hasMedia : List (String × Option Int)
deriving DecidableEq, Repr

/-- Whether an `:Account` node with the key exists. -/
def accountExists (g : BulkGraph) (k : String) : Bool :=
  g.accounts.any (fun a => a.account_id == k)

/-- Whether a `:Tweet` node with the key exists. -/
def tweetExists (g : BulkGraph) (k : String) : Bool :=
  g.tweets.any (fun t => t.tweet_id == k)

/-- Whether a `:Media` node with the key exists. -/
def mediaExists (g : BulkGraph) (k : Option Int) : Bool :=
  g.media.any (fun m => m.media_id == k)

/-- Step (B), one row: `MERGE (a:Account {account_id: row.account_id})
ON CREATE SET ...` — create the node with its properties only when no
node with the key exists; an existing node is left entirely unchanged. -/
def loadAccountRow (g : BulkGraph) (r : AccountRowCsv) : BulkGraph :=
  if accountExists g r.account_id then g
  else { g with accounts := g.accounts ++
    [⟨r.account_id, r.username, r.created_at, r.created_via,
      r.account_display_name, toInteger r.num_tweets,
      toInteger r.num_following, toInteger r.num_followers,
      toInteger r.num_likes⟩] }

/-- Step (B): the per-row `LOAD CSV` pass over `account.csv`. -/
def loadAccounts (rows : List AccountRowCsv) (g : BulkGraph) : BulkGraph :=
  rows.foldl loadAccountRow g

/-- `MERGE (a)-[:TWEETED]->(tw)` between matched nodes. -/
def mergeTweetedEdge (g : BulkGraph) (p : String × String) : BulkGraph :=
  if p ∈ g.tweeted then g else { g with tweeted := g.tweeted ++ [p] }

/-- `MERGE (follower)-[:FOLLOWS]->(acc)` / `MERGE (acc)-[:FOLLOWS]->(followee)`
between matched nodes. -/
def mergeFollowsEdge (g : BulkGraph) (p : String × String) : BulkGraph :=
  if p ∈ g.follows then g else { g with follows := g.follows ++ [p] }

/-- `MERGE (a)-[:LIKES]->(t)` between matched nodes. -/
def mergeLikesEdge (g : BulkGraph) (p : String × String) : BulkGraph :=
  if p ∈ g.likes then g else { g with likes := g.likes ++ [p] }

/-- `MERGE (t)-[:HAS_MEDIA]->(m)` between matched nodes. -/
def mergeHasMediaEdge (g : BulkGraph) (p : String × Option Int) : BulkGraph :=
  if p ∈ g.hasMedia then g else { g with hasMedia := g.hasMedia ++ [p] }

/-- `MERGE (tw:Tweet {tweet_id: row.tweet_id}) ON CREATE SET ...`. -/
def mergeTweetNode (g : BulkGraph) (r : TweetRowCsv) : BulkGraph :=
  if tweetExists g r.tweet_id then g
  else { g with tweets := g.tweets ++
    [⟨r.tweet_id, r.full_text, r.created_at, toInteger r.retweet_count,
      toInteger r.favorite_count⟩] }

/-- Step (C), one row: merge the `:Tweet` node (`ON CREATE SET`), then
`MATCH (a:Account {account_id: row.account_id})` and merge the `TWEETED`
edge; when the account does not match, no edge is created. -/
def loadTweetRow (g : BulkGraph) (r : TweetRowCsv) : BulkGraph :=
  if accountExists (mergeTweetNode g r) r.account_id then
    mergeTweetedEdge (mergeTweetNode g r) (r.account_id, r.tweet_id)
  else mergeTweetNode g r

/-- Step (C): the per-row pass over `enriched_tweets.csv`. -/
def loadTweets (rows : List TweetRowCsv) (g : BulkGraph) : BulkGraph :=
  rows.foldl loadTweetRow g

/-- Step (D), one row: `MATCH` both accounts, then
`MERGE (follower)-[:FOLLOWS]->(acc)`; rows with an unmatched endpoint do
nothing. -/
def loadFollowerRow (g : BulkGraph) (r : FollowerRowCsv) : BulkGraph :=
  if accountExists g r.account_id && accountExists g r.follower_account_id then
    mergeFollowsEdge g (r.follower_account_id, r.account_id)
  else g

/-- Step (D): the per-row pass over `followers.csv`. -/
def loadFollowers (rows : List FollowerRowCsv) (g : BulkGraph) : BulkGraph :=
  rows.foldl loadFollowerRow g

/-- Step (E), one row: `MATCH` both accounts, then
`MERGE (acc)-[:FOLLOWS]->(followee)`. -/
def loadFollowingRow (g : BulkGraph) (r : FollowingRowCsv) : BulkGraph :=
  if accountExists g r.account_id && accountExists g r.following_account_id then
    mergeFollowsEdge g (r.account_id, r.following_account_id)
  else g

/-- Step (E): the per-row pass over `following.csv`. -/
def loadFollowing (rows : List FollowingRowCsv) (g : BulkGraph) : BulkGraph :=
  rows.foldl loadFollowingRow g

/-- Step (F), one row: `MATCH` the account and the tweet, then
`MERGE (a)-[:LIKES]->(t)`. -/
def loadLikeRow (g : BulkGraph) (r : LikeRowCsv) : BulkGraph :=
  if accountExists g r.account_id && tweetExists g r.liked_tweet_id then
    mergeLikesEdge g (r.account_id, r.liked_tweet_id)
  else g

/-- Step (F): the per-row pass over `likes.csv`. -/
def loadLikes (rows : List LikeRowCsv) (g : BulkGraph) : BulkGraph :=
  rows.foldl loadLikeRow g

/-- The `:Media` key of a media row: `toInteger(row.media_id)`. -/
def mediaKey (r : MediaRowCsv) : Option Int :=
  toInteger (some r.media_id)

/-- `MERGE (m:Media {media_id: toInteger(row.media_id)}) ON CREATE SET ...`. -/
def mergeMediaNode (g : BulkGraph) (r : MediaRowCsv) : BulkGraph :=
  if mediaExists g (mediaKey r) then g
  else { g with media := g.media ++
    [⟨mediaKey r, r.media_url, r.media_type, toInteger r.width,
      toInteger r.height⟩] }

/-- Step (G), one row: merge the `:Media` node (`ON CREATE SET`), then
`MATCH (t:Tweet {tweet_id: row.tweet_id})` and merge the `HAS_MEDIA`
edge. -/
def loadMediaRow (g : BulkGraph) (r : MediaRowCsv) : BulkGraph :=
  if tweetExists (mergeMediaNode g r) r.tweet_id then
    mergeHasMediaEdge (mergeMediaNode g r) (r.tweet_id, mediaKey r)
  else mergeMediaNode g r

/-- Step (G): the per-row pass over `tweet_media.csv`. -/
def loadMedia (rows : List MediaRowCsv) (g : BulkGraph) : BulkGraph :=
  rows.foldl loadMediaRow g

/-- The six exported CSV files consumed by `load_data_into_neo4j`. -/
structure CsvData where
  account : List AccountRowCsv
  tweets : List TweetRowCsv
  followers : List FollowerRowCsv
  following : List FollowingRowCsv
  likes : List LikeRowCsv
  media : List MediaRowCsv
deriving Repr

/-- `load_data_into_neo4j`: the six `LOAD CSV` statements of `main.py` in
order — accounts (B), tweets and TWEETED edges (C), FOLLOWS edges from
`followers` (D), FOLLOWS edges from `following` (E), LIKES edges (F),
media and HAS_MEDIA edges (G). -/
def load_data_into_neo4j (csv : CsvData) (g : BulkGraph) : BulkGraph :=
  loadMedia csv.media
    (loadLikes csv.likes
      (loadFollowing csv.following
        (loadFollowers csv.followers
          (loadTweets csv.tweets
            (loadAccounts csv.account g)))))

/-- `accountExists` only depends on the accounts component. -/
theorem accountExists_congr {g g' : BulkGraph} (h : g.accounts = g'.accounts)
    (k : String) : accountExists g k = accountExists g' k := by
  unfold accountExists
  rw [h]

/-- `tweetExists` only depends on the tweets component. -/
theorem tweetExists_congr {g g' : BulkGraph} (h : g.tweets = g'.tweets)
    (k : String) : tweetExists g k = tweetExists g' k := by
  unfold tweetExists
  rw [h]

/-- `mediaExists` only depends on the media component. -/
theorem mediaExists_congr {g g' : BulkGraph} (h : g.media = g'.media)
    (k : Option Int) : mediaExists g k = mediaExists g' k := by
  unfold mediaExists
  rw [h]

/-- Step (B) touches only the accounts component. -/
theorem loadAccountRow_comps (g : BulkGraph) (r : AccountRowCsv) :
    (loadAccountRow g r).tweets = g.tweets ∧
    (loadAccountRow g r).media = g.media ∧
    (loadAccountRow g r).tweeted = g.tweeted ∧
    (loadAccountRow g r).follows = g.follows ∧
    (loadAccountRow g r).likes = g.likes ∧
    (loadAccountRow g r).hasMedia = g.hasMedia := by
  unfold loadAccountRow
  split <;> exact ⟨rfl, rfl, rfl, rfl, rfl, rfl⟩

/-- The fold of step (B) touches only the accounts component. -/
theorem loadAccounts_comps (rows : List AccountRowCsv) : ∀ g : BulkGraph,
    (loadAccounts rows g).tweets = g.tweets ∧
    (loadAccounts rows g).media = g.media ∧
    (loadAccounts rows g).tweeted = g.tweeted ∧
    (loadAccounts rows g).follows = g.follows ∧
    (loadAccounts rows g).likes = g.likes ∧
    (loadAccounts rows g).hasMedia = g.hasMedia := by
  induction rows with
  | nil => intro g; exact ⟨rfl, rfl, rfl, rfl, rfl, rfl⟩
  | cons r rs ih =>
    intro g
    obtain ⟨h1, h2, h3, h4, h5, h6⟩ := ih (loadAccountRow g r)
    obtain ⟨k1, k2, k3, k4, k5, k6⟩ := loadAccountRow_comps g r
    exact ⟨h1.trans k1, h2.trans k2, h3.trans k3, h4.trans k4, h5.trans k5,
      h6.trans k6⟩

/-- Step (B) preserves existing accounts. -/
theorem loadAccountRow_mono (g : BulkGraph) (r : AccountRowCsv) (k : String)
    (h : accountExists g k = true) :
    accountExists (loadAccountRow g r) k = true := by
  unfold loadAccountRow
  split
  · exact h
  · unfold accountExists at h ⊢
    simp only [List.any_append, h, Bool.true_or]

/-- The fold of step (B) preserves existing accounts. -/
theorem loadAccounts_mono (rows : List AccountRowCsv) (k : String) :
    ∀ g : BulkGraph, accountExists g k = true →
    accountExists (loadAccounts rows g) k = true := by
  induction rows with
  | nil => intro g h; exact h
  | cons r rs ih => intro g h; exact ih _ (loadAccountRow_mono g r k h)

/-- Step (B) makes its own row's account exist. -/
theorem loadAccountRow_self (g : BulkGraph) (r : AccountRowCsv) :
    accountExists (loadAccountRow g r) r.account_id = true := by
  unfold loadAccountRow
  split
  · rename_i h
    exact h
  · unfold accountExists
    simp

/-- After step (B) every account of the CSV exists. -/
theorem loadAccounts_est (rows : List AccountRowCsv) : ∀ g : BulkGraph,
    ∀ r ∈ rows, accountExists (loadAccounts rows g) r.account_id = true := by
  induction rows with
  | nil => intro g r hr; simp at hr
  | cons r0 rs ih =>
    intro g r hr
    rcases List.mem_cons.mp hr with rfl | hr
    · exact loadAccounts_mono rs _ _ (loadAccountRow_self g r)
    · exact ih _ r hr

/-- Step (B) is a per-row no-op when the account already exists: an
existing `:Account` node is left entirely unchanged (`ON CREATE SET`). -/
theorem loadAccountRow_noop (g : BulkGraph) (r : AccountRowCsv)
    (h : accountExists g r.account_id = true) : loadAccountRow g r = g := by
  unfold loadAccountRow
  rw [if_pos h]

/-- The fold of step (B) is a no-op when every account already exists. -/
theorem loadAccounts_noop (rows : List AccountRowCsv) : ∀ g : BulkGraph,
    (∀ r ∈ rows, accountExists g r.account_id = true) →
    loadAccounts rows g = g := by
  induction rows with
  | nil => intro g _; rfl
  | cons r rs ih =>
    intro g h
    calc loadAccounts (r :: rs) g = loadAccounts rs (loadAccountRow g r) := rfl
    _ = loadAccounts rs g := by
        rw [loadAccountRow_noop g r (h r (List.mem_cons_self r rs))]
    _ = g := ih g (fun x hx => h x (List.mem_cons_of_mem r hx))

/-- `mergeTweetedEdge` touches only the tweeted component. -/
theorem mergeTweetedEdge_comps (g : BulkGraph) (p : String × String) :
    (mergeTweetedEdge g p).accounts = g.accounts ∧
    (mergeTweetedEdge g p).tweets = g.tweets ∧
    (mergeTweetedEdge g p).media = g.media ∧
    (mergeTweetedEdge g p).follows = g.follows ∧
    (mergeTweetedEdge g p).likes = g.likes ∧
    (mergeTweetedEdge g p).hasMedia = g.hasMedia := by
  unfold mergeTweetedEdge
  split <;> exact ⟨rfl, rfl, rfl, rfl, rfl, rfl⟩

/-- The merged `TWEETED` edge is present afterwards. -/
theorem mergeTweetedEdge_mem (g : BulkGraph) (p : String × String) :
    p ∈ (mergeTweetedEdge g p).tweeted := by
  unfold mergeTweetedEdge
  split
  · rename_i h
    exact h
  · simp

/-- `mergeTweetedEdge` preserves existing `TWEETED` edges. -/
theorem mergeTweetedEdge_mono (g : BulkGraph) (p q : String × String)
    (h : q ∈ g.tweeted) : q ∈ (mergeTweetedEdge g p).tweeted := by
  unfold mergeTweetedEdge
  split
  · exact h
  · exact List.mem_append.mpr (Or.inl h)

/-- `mergeTweetedEdge` is a no-op when the edge exists. -/
theorem mergeTweetedEdge_noop (g : BulkGraph) (p : String × String)
    (h : p ∈ g.tweeted) : mergeTweetedEdge g p = g := by
  unfold mergeTweetedEdge
  rw [if_pos h]

/-- `mergeFollowsEdge` touches only the follows component. -/
theorem mergeFollowsEdge_comps (g : BulkGraph) (p : String × String) :
    (mergeFollowsEdge g p).accounts = g.accounts ∧
    (mergeFollowsEdge g p).tweets = g.tweets ∧
    (mergeFollowsEdge g p).media = g.media ∧
    (mergeFollowsEdge g p).tweeted = g.tweeted ∧
    (mergeFollowsEdge g p).likes = g.likes ∧
    (mergeFollowsEdge g p).hasMedia = g.hasMedia := by
  unfold mergeFollowsEdge
  split <;> exact ⟨rfl, rfl, rfl, rfl, rfl, rfl⟩

/-- The merged `FOLLOWS` edge is present afterwards. -/
theorem mergeFollowsEdge_mem (g : BulkGraph) (p : String × String) :
    p ∈ (mergeFollowsEdge g p).follows := by
  unfold mergeFollowsEdge
  split
  · rename_i h
    exact h
  · simp

/-- `mergeFollowsEdge` preserves existing `FOLLOWS` edges. -/
theorem mergeFollowsEdge_mono (g : BulkGraph) (p q : String × String)
    (h : q ∈ g.follows) : q ∈ (mergeFollowsEdge g p).follows := by
  unfold mergeFollowsEdge
  split
  · exact h
  · exact List.mem_append.mpr (Or.inl h)

/-- `mergeFollowsEdge` is a no-op when the edge exists. -/
theorem mergeFollowsEdge_noop (g : BulkGraph) (p : String × String)
    (h : p ∈ g.follows) : mergeFollowsEdge g p = g := by
  unfold mergeFollowsEdge
  rw [if_pos h]

/-- `mergeLikesEdge` touches only the likes component. -/
theorem mergeLikesEdge_comps (g : BulkGraph) (p : String × String) :
    (mergeLikesEdge g p).accounts = g.accounts ∧
    (mergeLikesEdge g p).tweets = g.tweets ∧
    (mergeLikesEdge g p).media = g.media ∧
    (mergeLikesEdge g p).tweeted = g.tweeted ∧
    (mergeLikesEdge g p).follows = g.follows ∧
    (mergeLikesEdge g p).hasMedia = g.hasMedia := by
  unfold mergeLikesEdge
  split <;> exact ⟨rfl, rfl, rfl, rfl, rfl, rfl⟩

/-- The merged `LIKES` edge is present afterwards. -/
theorem mergeLikesEdge_mem (g : BulkGraph) (p : String × String) :
    p ∈ (mergeLikesEdge g p).likes := by
  unfold mergeLikesEdge
  split
  · rename_i h
    exact h
  · simp

/-- `mergeLikesEdge` preserves existing `LIKES` edges. -/
theorem mergeLikesEdge_mono (g : BulkGraph) (p q : String × String)
    (h : q ∈ g.likes) : q ∈ (mergeLikesEdge g p).likes := by
  unfold mergeLikesEdge
  split
  · exact h
  · exact List.mem_append.mpr (Or.inl h)

/-- `mergeLikesEdge` is a no-op when the edge exists. -/
theorem mergeLikesEdge_noop (g : BulkGraph) (p : String × String)
    (h : p ∈ g.likes) : mergeLikesEdge g p = g := by
  unfold mergeLikesEdge
  rw [if_pos h]

/-- `mergeHasMediaEdge` touches only the hasMedia component. -/
theorem mergeHasMediaEdge_comps (g : BulkGraph) (p : String × Option Int) :
    (mergeHasMediaEdge g p).accounts = g.accounts ∧
    (mergeHasMediaEdge g p).tweets = g.tweets ∧
    (mergeHasMediaEdge g p).media = g.media ∧
    (mergeHasMediaEdge g p).tweeted = g.tweeted ∧
    (mergeHasMediaEdge g p).follows = g.follows ∧
    (mergeHasMediaEdge g p).likes = g.likes := by
  unfold mergeHasMediaEdge
  split <;> exact ⟨rfl, rfl, rfl, rfl, rfl, rfl⟩

/-- The merged `HAS_MEDIA` edge is present afterwards. -/
theorem mergeHasMediaEdge_mem (g : BulkGraph) (p : String × Option Int) :
    p ∈ (mergeHasMediaEdge g p).hasMedia := by
  unfold mergeHasMediaEdge
  split
  · rename_i h
    exact h
  · simp

/-- `mergeHasMediaEdge` preserves existing `HAS_MEDIA` edges. -/
theorem mergeHasMediaEdge_mono (g : BulkGraph) (p q : String × Option Int)
    (h : q ∈ g.hasMedia) : q ∈ (mergeHasMediaEdge g p).hasMedia := by
  unfold mergeHasMediaEdge
  split
  · exact h
  · exact List.mem_append.mpr (Or.inl h)

/-- `mergeHasMediaEdge` is a no-op when the edge exists. -/
theorem mergeHasMediaEdge_noop (g : BulkGraph) (p : String × Option Int)
    (h : p ∈ g.hasMedia) : mergeHasMediaEdge g p = g := by
  unfold mergeHasMediaEdge
  rw [if_pos h]

/-- `mergeTweetNode` touches only the tweets component. -/
theorem mergeTweetNode_comps (g : BulkGraph) (r : TweetRowCsv) :
    (mergeTweetNode g r).accounts = g.accounts ∧
    (mergeTweetNode g r).media = g.media ∧
    (mergeTweetNode g r).tweeted = g.tweeted ∧
    (mergeTweetNode g r).follows = g.follows ∧
    (mergeTweetNode g r).likes = g.likes ∧
    (mergeTweetNode g r).hasMedia = g.hasMedia := by
  unfold mergeTweetNode
  split <;> exact ⟨rfl, rfl, rfl, rfl, rfl, rfl⟩

/-- `mergeTweetNode` makes its own row's tweet exist. -/
theorem mergeTweetNode_self (g : BulkGraph) (r : TweetRowCsv) :
    tweetExists (mergeTweetNode g r) r.tweet_id = true := by
  unfold mergeTweetNode
  split
  · rename_i h
    exact h
  · unfold tweetExists
    simp

/-- `mergeTweetNode` preserves existing tweets. -/
theorem mergeTweetNode_mono (g : BulkGraph) (r : TweetRowCsv) (k : String)
    (h : tweetExists g k = true) :
    tweetExists (mergeTweetNode g r) k = true := by
  unfold mergeTweetNode
  split
  · exact h
  · unfold tweetExists at h ⊢
    simp only [List.any_append, h, Bool.true_or]

/-- `mergeTweetNode` is a no-op when the tweet exists. -/
theorem mergeTweetNode_noop (g : BulkGraph) (r : TweetRowCsv)
    (h : tweetExists g r.tweet_id = true) : mergeTweetNode g r = g := by
  unfold mergeTweetNode
  rw [if_pos h]

/-- Step (C) touches only the tweets and tweeted components. -/
theorem loadTweetRow_comps (g : BulkGraph) (r : TweetRowCsv) :
    (loadTweetRow g r).accounts = g.accounts ∧
    (loadTweetRow g r).media = g.media ∧
    (loadTweetRow g r).follows = g.follows ∧
    (loadTweetRow g r).likes = g.likes ∧
    (loadTweetRow g r).hasMedia = g.hasMedia := by
  obtain ⟨n1, n2, n3, n4, n5, n6⟩ := mergeTweetNode_comps g r
  unfold loadTweetRow
  split
  · obtain ⟨e1, e2, e3, e4, e5, e6⟩ :=
      mergeTweetedEdge_comps (mergeTweetNode g r) (r.account_id, r.tweet_id)
    exact ⟨e1.trans n1, e3.trans n2, e4.trans n4, e5.trans n5, e6.trans n6⟩
  · exact ⟨n1, n2, n4, n5, n6⟩

/-- Step (C) keeps its own row's tweet existing. -/
theorem loadTweetRow_self (g : BulkGraph) (r : TweetRowCsv) :
    tweetExists (loadTweetRow g r) r.tweet_id = true := by
  unfold loadTweetRow
  split
  · rw [tweetExists_congr
      (mergeTweetedEdge_comps (mergeTweetNode g r) (r.account_id, r.tweet_id)).2.1
      r.tweet_id]
    exact mergeTweetNode_self g r
  · exact mergeTweetNode_self g r

/-- Step (C) preserves existing tweets. -/
theorem loadTweetRow_mono (g : BulkGraph) (r : TweetRowCsv) (k : String)
    (h : tweetExists g k = true) :
    tweetExists (loadTweetRow g r) k = true := by
  unfold loadTweetRow
  split
  · rw [tweetExists_congr
      (mergeTweetedEdge_comps (mergeTweetNode g r) (r.account_id, r.tweet_id)).2.1 k]
    exact mergeTweetNode_mono g r k h
  · exact mergeTweetNode_mono g r k h

/-- Step (C) creates the `TWEETED` edge when the account matches. -/
theorem loadTweetRow_edge (g : BulkGraph) (r : TweetRowCsv)
    (h : accountExists g r.account_id = true) :
    (r.account_id, r.tweet_id) ∈ (loadTweetRow g r).tweeted := by
  unfold loadTweetRow
  rw [accountExists_congr (mergeTweetNode_comps g r).1 r.account_id, if_pos h]
  exact mergeTweetedEdge_mem _ _

/-- Step (C) preserves existing `TWEETED` edges. -/
theorem loadTweetRow_edge_mono (g : BulkGraph) (r : TweetRowCsv)
    (q : String × String) (h : q ∈ g.tweeted) :
    q ∈ (loadTweetRow g r).tweeted := by
  have hn : q ∈ (mergeTweetNode g r).tweeted := by
    rw [(mergeTweetNode_comps g r).2.2.1]
    exact h
  unfold loadTweetRow
  split
  · exact mergeTweetedEdge_mono _ _ _ hn
  · exact hn

/-- Step (C) is a per-row no-op when the tweet exists and, should the
account match, the edge exists too. -/
theorem loadTweetRow_noop (g : BulkGraph) (r : TweetRowCsv)
    (h1 : tweetExists g r.tweet_id = true)
    (h2 : accountExists g r.account_id = true →
      (r.account_id, r.tweet_id) ∈ g.tweeted) : loadTweetRow g r = g := by
  unfold loadTweetRow
  rw [mergeTweetNode_noop g r h1]
  by_cases hc : accountExists g r.account_id = true
  · rw [if_pos hc, mergeTweetedEdge_noop g _ (h2 hc)]
  · rw [if_neg hc]

/-- The fold of step (C) touches only the tweets and tweeted
components. -/
theorem loadTweets_comps (rows : List TweetRowCsv) : ∀ g : BulkGraph,
    (loadTweets rows g).accounts = g.accounts ∧
    (loadTweets rows g).media = g.media ∧
    (loadTweets rows g).follows = g.follows ∧
    (loadTweets rows g).likes = g.likes ∧
    (loadTweets rows g).hasMedia = g.hasMedia := by
  induction rows with
  | nil => intro g; exact ⟨rfl, rfl, rfl, rfl, rfl⟩
  | cons r rs ih =>
    intro g
    obtain ⟨h1, h2, h3, h4, h5⟩ := ih (loadTweetRow g r)
    obtain ⟨k1, k2, k3, k4, k5⟩ := loadTweetRow_comps g r
    exact ⟨h1.trans k1, h2.trans k2, h3.trans k3, h4.trans k4, h5.trans k5⟩

/-- The fold of step (C) preserves existing tweets. -/
theorem loadTweets_mono (rows : List TweetRowCsv) (k : String) :
    ∀ g : BulkGraph, tweetExists g k = true →
    tweetExists (loadTweets rows g) k = true := by
  induction rows with
  | nil => intro g h; exact h
  | cons r rs ih => intro g h; exact ih _ (loadTweetRow_mono g r k h)

/-- The fold of step (C) preserves existing `TWEETED` edges. -/
theorem loadTweets_edge_mono (rows : List TweetRowCsv) (q : String × String) :
    ∀ g : BulkGraph, q ∈ g.tweeted → q ∈ (loadTweets rows g).tweeted := by
  induction rows with
  | nil => intro g h; exact h
  | cons r rs ih => intro g h; exact ih _ (loadTweetRow_edge_mono g r q h)

/-- After step (C) every tweet of the CSV exists, and a `TWEETED` edge
exists for every row whose account matched. -/
theorem loadTweets_est (rows : List TweetRowCsv) : ∀ g : BulkGraph,
    ∀ r ∈ rows, tweetExists (loadTweets rows g) r.tweet_id = true ∧
      (accountExists g r.account_id = true →
        (r.account_id, r.tweet_id) ∈ (loadTweets rows g).tweeted) := by
  induction rows with
  | nil => intro g r hr; simp at hr
  | cons r0 rs ih =>
    intro g r hr
    rcases List.mem_cons.mp hr with rfl | hr
    · refine ⟨loadTweets_mono rs _ _ (loadTweetRow_self g r), fun hc => ?_⟩
      exact loadTweets_edge_mono rs _ _ (loadTweetRow_edge g r hc)
    · obtain ⟨ih1, ih2⟩ := ih (loadTweetRow g r0) r hr
      refine ⟨ih1, fun hc => ?_⟩
      apply ih2
      rw [accountExists_congr (loadTweetRow_comps g r0).1 r.account_id]
      exact hc

/-- The fold of step (C) is a no-op when every row's tweet exists and
every matched row's edge exists. -/
theorem loadTweets_noop (rows : List TweetRowCsv) : ∀ g : BulkGraph,
    (∀ r ∈ rows, tweetExists g r.tweet_id = true ∧
      (accountExists g r.account_id = true →
        (r.account_id, r.tweet_id) ∈ g.tweeted)) →
    loadTweets rows g = g := by
  induction rows with
  | nil => intro g _; rfl
  | cons r rs ih =>
    intro g h
    obtain ⟨h1, h2⟩ := h r (List.mem_cons_self r rs)
    calc loadTweets (r :: rs) g = loadTweets rs (loadTweetRow g r) := rfl
    _ = loadTweets rs g := by rw [loadTweetRow_noop g r h1 h2]
    _ = g := ih g (fun x hx => h x (List.mem_cons_of_mem r hx))

/-- Step (D) touches only the follows component. -/
theorem loadFollowerRow_comps (g : BulkGraph) (r : FollowerRowCsv) :
    (loadFollowerRow g r).accounts = g.accounts ∧
    (loadFollowerRow g r).tweets = g.tweets ∧
    (loadFollowerRow g r).media = g.media ∧
    (loadFollowerRow g r).tweeted = g.tweeted ∧
    (loadFollowerRow g r).likes = g.likes ∧
    (loadFollowerRow g r).hasMedia = g.hasMedia := by
  unfold loadFollowerRow
  split
  · obtain ⟨e1, e2, e3, e4, e5, e6⟩ :=
      mergeFollowsEdge_comps g (r.follower_account_id, r.account_id)
    exact ⟨e1, e2, e3, e4, e5, e6⟩
  · exact ⟨rfl, rfl, rfl, rfl, rfl, rfl⟩

/-- The fold of step (D) touches only the follows component. -/
theorem loadFollowers_comps (rows : List FollowerRowCsv) : ∀ g : BulkGraph,
    (loadFollowers rows g).accounts = g.accounts ∧
    (loadFollowers rows g).tweets = g.tweets ∧
    (loadFollowers rows g).media = g.media ∧
    (loadFollowers rows g).tweeted = g.tweeted ∧
    (loadFollowers rows g).likes = g.likes ∧
    (loadFollowers rows g).hasMedia = g.hasMedia := by
  induction rows with
  | nil => intro g; exact ⟨rfl, rfl, rfl, rfl, rfl, rfl⟩
  | cons r rs ih =>
    intro g
    obtain ⟨h1, h2, h3, h4, h5, h6⟩ := ih (loadFollowerRow g r)
    obtain ⟨k1, k2, k3, k4, k5, k6⟩ := loadFollowerRow_comps g r
    exact ⟨h1.trans k1, h2.trans k2, h3.trans k3, h4.trans k4, h5.trans k5,
      h6.trans k6⟩

/-- Step (D) preserves existing `FOLLOWS` edges. -/
theorem loadFollowerRow_mono (g : BulkGraph) (r : FollowerRowCsv)
    (q : String × String) (h : q ∈ g.follows) :
    q ∈ (loadFollowerRow g r).follows := by
  unfold loadFollowerRow
  split
  · exact mergeFollowsEdge_mono g _ q h
  · exact h

/-- The fold of step (D) preserves existing `FOLLOWS` edges. -/
theorem loadFollowers_mono (rows : List FollowerRowCsv) (q : String × String) :
    ∀ g : BulkGraph, q ∈ g.follows → q ∈ (loadFollowers rows g).follows := by
  induction rows with
  | nil => intro g h; exact h
  | cons r rs ih => intro g h; exact ih _ (loadFollowerRow_mono g r q h)

/-- After step (D), every row with both accounts matched has its
`FOLLOWS` edge. -/
theorem loadFollowers_est (rows : List FollowerRowCsv) : ∀ g : BulkGraph,
    ∀ r ∈ rows,
    (accountExists g r.account_id && accountExists g r.follower_account_id)
        = true →
    (r.follower_account_id, r.account_id) ∈ (loadFollowers rows g).follows := by
  induction rows with
  | nil => intro g r hr; simp at hr
  | cons r0 rs ih =>
    intro g r hr hc
    rcases List.mem_cons.mp hr with rfl | hr
    · apply loadFollowers_mono rs _ _
      unfold loadFollowerRow
      rw [if_pos hc]
      exact mergeFollowsEdge_mem g _
    · apply ih (loadFollowerRow g r0) r hr
      rw [accountExists_congr (loadFollowerRow_comps g r0).1 r.account_id,
        accountExists_congr (loadFollowerRow_comps g r0).1 r.follower_account_id]
      exact hc

/-- The fold of step (D) is a no-op when every matched row's edge
exists. -/
theorem loadFollowers_noop (rows : List FollowerRowCsv) : ∀ g : BulkGraph,
    (∀ r ∈ rows,
      (accountExists g r.account_id && accountExists g r.follower_account_id)
          = true →
      (r.follower_account_id, r.account_id) ∈ g.follows) →
    loadFollowers rows g = g := by
  induction rows with
  | nil => intro g _; rfl
  | cons r rs ih =>
    intro g h
    have h0 : loadFollowerRow g r = g := by
      unfold loadFollowerRow
      by_cases hc : (accountExists g r.account_id &&
          accountExists g r.follower_account_id) = true
      · rw [if_pos hc, mergeFollowsEdge_noop g _ (h r (List.mem_cons_self r rs) hc)]
      · rw [if_neg hc]
    calc loadFollowers (r :: rs) g = loadFollowers rs (loadFollowerRow g r) := rfl
    _ = loadFollowers rs g := by rw [h0]
    _ = g := ih g (fun x hx => h x (List.mem_cons_of_mem r hx))

/-- Step (E) touches only the follows component. -/
theorem loadFollowingRow_comps (g : BulkGraph) (r : FollowingRowCsv) :
    (loadFollowingRow g r).accounts = g.accounts ∧
    (loadFollowingRow g r).tweets = g.tweets ∧
    (loadFollowingRow g r).media = g.media ∧
    (loadFollowingRow g r).tweeted = g.tweeted ∧
    (loadFollowingRow g r).likes = g.likes ∧
    (loadFollowingRow g r).hasMedia = g.hasMedia := by
  unfold loadFollowingRow
  split
  · exact mergeFollowsEdge_comps g (r.account_id, r.following_account_id)
  · exact ⟨rfl, rfl, rfl, rfl, rfl, rfl⟩

/-- The fold of step (E) touches only the follows component. -/
theorem loadFollowing_comps (rows : List FollowingRowCsv) : ∀ g : BulkGraph,
    (loadFollowing rows g).accounts = g.accounts ∧
    (loadFollowing rows g).tweets = g.tweets ∧
    (loadFollowing rows g).media = g.media ∧
    (loadFollowing rows g).tweeted = g.tweeted ∧
    (loadFollowing rows g).likes = g.likes ∧
    (loadFollowing rows g).hasMedia = g.hasMedia := by
  induction rows with
  | nil => intro g; exact ⟨rfl, rfl, rfl, rfl, rfl, rfl⟩
  | cons r rs ih =>
    intro g
    obtain ⟨h1, h2, h3, h4, h5, h6⟩ := ih (loadFollowingRow g r)
    obtain ⟨k1, k2, k3, k4, k5, k6⟩ := loadFollowingRow_comps g r
    exact ⟨h1.trans k1, h2.trans k2, h3.trans k3, h4.trans k4, h5.trans k5,
      h6.trans k6⟩

/-- Step (E) preserves existing `FOLLOWS` edges. -/
theorem loadFollowingRow_mono (g : BulkGraph) (r : FollowingRowCsv)
    (q : String × String) (h : q ∈ g.follows) :
    q ∈ (loadFollowingRow g r).follows := by
  unfold loadFollowingRow
  split
  · exact mergeFollowsEdge_mono g _ q h
  · exact h

/-- The fold of step (E) preserves existing `FOLLOWS` edges. -/
theorem loadFollowing_mono (rows : List FollowingRowCsv) (q : String × String) :
    ∀ g : BulkGraph, q ∈ g.follows → q ∈ (loadFollowing rows g).follows := by
  induction rows with
  | nil => intro g h; exact h
  | cons r rs ih => intro g h; exact ih _ (loadFollowingRow_mono g r q h)

/-- After step (E), every row with both accounts matched has its
`FOLLOWS` edge. -/
theorem loadFollowing_est (rows : List FollowingRowCsv) : ∀ g : BulkGraph,
    ∀ r ∈ rows,
    (accountExists g r.account_id && accountExists g r.following_account_id)
        = true →
    (r.account_id, r.following_account_id) ∈ (loadFollowing rows g).follows := by
  induction rows with
  | nil => intro g r hr; simp at hr
  | cons r0 rs ih =>
    intro g r hr hc
    rcases List.mem_cons.mp hr with rfl | hr
    · apply loadFollowing_mono rs _ _
      unfold loadFollowingRow
      rw [if_pos hc]
      exact mergeFollowsEdge_mem g _
    · apply ih (loadFollowingRow g r0) r hr
      rw [accountExists_congr (loadFollowingRow_comps g r0).1 r.account_id,
        accountExists_congr (loadFollowingRow_comps g r0).1 r.following_account_id]
      exact hc

/-- The fold of step (E) is a no-op when every matched row's edge
exists. -/
theorem loadFollowing_noop (rows : List FollowingRowCsv) : ∀ g : BulkGraph,
    (∀ r ∈ rows,
      (accountExists g r.account_id && accountExists g r.following_account_id)
          = true →
      (r.account_id, r.following_account_id) ∈ g.follows) →
    loadFollowing rows g = g := by
  induction rows with
  | nil => intro g _; rfl
  | cons r rs ih =>
    intro g h
    have h0 : loadFollowingRow g r = g := by
      unfold loadFollowingRow
      by_cases hc : (accountExists g r.account_id &&
          accountExists g r.following_account_id) = true
      · rw [if_pos hc, mergeFollowsEdge_noop g _ (h r (List.mem_cons_self r rs) hc)]
      · rw [if_neg hc]
    calc loadFollowing (r :: rs) g = loadFollowing rs (loadFollowingRow g r) := rfl
    _ = loadFollowing rs g := by rw [h0]
    _ = g := ih g (fun x hx => h x (List.mem_cons_of_mem r hx))

/-- Step (F) touches only the likes component. -/
theorem loadLikeRow_comps (g : BulkGraph) (r : LikeRowCsv) :
    (loadLikeRow g r).accounts = g.accounts ∧
    (loadLikeRow g r).tweets = g.tweets ∧
    (loadLikeRow g r).media = g.media ∧
    (loadLikeRow g r).tweeted = g.tweeted ∧
    (loadLikeRow g r).follows = g.follows ∧
    (loadLikeRow g r).hasMedia = g.hasMedia := by
  unfold loadLikeRow
  split
  · exact mergeLikesEdge_comps g (r.account_id, r.liked_tweet_id)
  · exact ⟨rfl, rfl, rfl, rfl, rfl, rfl⟩

/-- The fold of step (F) touches only the likes component. -/
theorem loadLikes_comps (rows : List LikeRowCsv) : ∀ g : BulkGraph,
    (loadLikes rows g).accounts = g.accounts ∧
    (loadLikes rows g).tweets = g.tweets ∧
    (loadLikes rows g).media = g.media ∧
    (loadLikes rows g).tweeted = g.tweeted ∧
    (loadLikes rows g).follows = g.follows ∧
    (loadLikes rows g).hasMedia = g.hasMedia := by
  induction rows with
  | nil => intro g; exact ⟨rfl, rfl, rfl, rfl, rfl, rfl⟩
  | cons r rs ih =>
    intro g
    obtain ⟨h1, h2, h3, h4, h5, h6⟩ := ih (loadLikeRow g r)
    obtain ⟨k1, k2, k3, k4, k5, k6⟩ := loadLikeRow_comps g r
    exact ⟨h1.trans k1, h2.trans k2, h3.trans k3, h4.trans k4, h5.trans k5,
      h6.trans k6⟩

/-- Step (F) preserves existing `LIKES` edges. -/
theorem loadLikeRow_mono (g : BulkGraph) (r : LikeRowCsv)
    (q : String × String) (h : q ∈ g.likes) : q ∈ (loadLikeRow g r).likes := by
  unfold loadLikeRow
  split
  · exact mergeLikesEdge_mono g _ q h
  · exact h

/-- The fold of step (F) preserves existing `LIKES` edges. -/
theorem loadLikes_mono (rows : List LikeRowCsv) (q : String × String) :
    ∀ g : BulkGraph, q ∈ g.likes → q ∈ (loadLikes rows g).likes := by
  induction rows with
  | nil => intro g h; exact h
  | cons r rs ih => intro g h; exact ih _ (loadLikeRow_mono g r q h)

/-- After step (F), every row with a matched account and tweet has its
`LIKES` edge. -/
theorem loadLikes_est (rows : List LikeRowCsv) : ∀ g : BulkGraph,
    ∀ r ∈ rows,
    (accountExists g r.account_id && tweetExists g r.liked_tweet_id) = true →
    (r.account_id, r.liked_tweet_id) ∈ (loadLikes rows g).likes := by
  induction rows with
  | nil => intro g r hr; simp at hr
  | cons r0 rs ih =>
    intro g r hr hc
    rcases List.mem_cons.mp hr with rfl | hr
    · apply loadLikes_mono rs _ _
      unfold loadLikeRow
      rw [if_pos hc]
      exact mergeLikesEdge_mem g _
    · apply ih (loadLikeRow g r0) r hr
      rw [accountExists_congr (loadLikeRow_comps g r0).1 r.account_id,
        tweetExists_congr (loadLikeRow_comps g r0).2.1 r.liked_tweet_id]
      exact hc

/-- The fold of step (F) is a no-op when every matched row's edge
exists. -/
theorem loadLikes_noop (rows : List LikeRowCsv) : ∀ g : BulkGraph,
    (∀ r ∈ rows,
      (accountExists g r.account_id && tweetExists g r.liked_tweet_id) = true →
      (r.account_id, r.liked_tweet_id) ∈ g.likes) →
    loadLikes rows g = g := by
  induction rows with
  | nil => intro g _; rfl
  | cons r rs ih =>
    intro g h
    have h0 : loadLikeRow g r = g := by
      unfold loadLikeRow
      by_cases hc : (accountExists g r.account_id &&
          tweetExists g r.liked_tweet_id) = true
      · rw [if_pos hc, mergeLikesEdge_noop g _ (h r (List.mem_cons_self r rs) hc)]
      · rw [if_neg hc]
    calc loadLikes (r :: rs) g = loadLikes rs (loadLikeRow g r) := rfl
    _ = loadLikes rs g := by rw [h0]
    _ = g := ih g (fun x hx => h x (List.mem_cons_of_mem r hx))

/-- `mergeMediaNode` touches only the media component. -/
theorem mergeMediaNode_comps (g : BulkGraph) (r : MediaRowCsv) :
    (mergeMediaNode g r).accounts = g.accounts ∧
    (mergeMediaNode g r).tweets = g.tweets ∧
    (mergeMediaNode g r).tweeted = g.tweeted ∧
    (mergeMediaNode g r).follows = g.follows ∧
    (mergeMediaNode g r).likes = g.likes ∧
    (mergeMediaNode g r).hasMedia = g.hasMedia := by
  unfold mergeMediaNode
  split <;> exact ⟨rfl, rfl, rfl, rfl, rfl, rfl⟩

/-- `mergeMediaNode` makes its own row's media node exist. -/
theorem mergeMediaNode_self (g : BulkGraph) (r : MediaRowCsv) :
    mediaExists (mergeMediaNode g r) (mediaKey r) = true := by
  unfold mergeMediaNode
  split
  · rename_i h
    exact h
  · unfold mediaExists
    simp

/-- `mergeMediaNode` preserves existing media nodes. -/
theorem mergeMediaNode_mono (g : BulkGraph) (r : MediaRowCsv) (k : Option Int)
    (h : mediaExists g k = true) :
    mediaExists (mergeMediaNode g r) k = true := by
  unfold mergeMediaNode
  split
  · exact h
  · unfold mediaExists at h ⊢
    simp only [List.any_append, h, Bool.true_or]

/-- `mergeMediaNode` is a no-op when the media node exists. -/
theorem mergeMediaNode_noop (g : BulkGraph) (r : MediaRowCsv)
    (h : mediaExists g (mediaKey r) = true) : mergeMediaNode g r = g := by
  unfold mergeMediaNode
  rw [if_pos h]

/-- Step (G) touches only the media and hasMedia components. -/
theorem loadMediaRow_comps (g : BulkGraph) (r : MediaRowCsv) :
    (loadMediaRow g r).accounts = g.accounts ∧
    (loadMediaRow g r).tweets = g.tweets ∧
    (loadMediaRow g r).tweeted = g.tweeted ∧
    (loadMediaRow g r).follows = g.follows ∧
    (loadMediaRow g r).likes = g.likes := by
  obtain ⟨n1, n2, n3, n4, n5, n6⟩ := mergeMediaNode_comps g r
  unfold loadMediaRow
  split
  · obtain ⟨e1, e2, e3, e4, e5, e6⟩ :=
      mergeHasMediaEdge_comps (mergeMediaNode g r) (r.tweet_id, mediaKey r)
    exact ⟨e1.trans n1, e2.trans n2, e4.trans n3, e5.trans n4, e6.trans n5⟩
  · exact ⟨n1, n2, n3, n4, n5⟩

/-- Step (G) keeps its own row's media node existing. -/
theorem loadMediaRow_self (g : BulkGraph) (r : MediaRowCsv) :
    mediaExists (loadMediaRow g r) (mediaKey r) = true := by
  unfold loadMediaRow
  split
  · rw [mediaExists_congr
      (mergeHasMediaEdge_comps (mergeMediaNode g r) (r.tweet_id, mediaKey r)).2.2.1
      (mediaKey r)]
    exact mergeMediaNode_self g r
  · exact mergeMediaNode_self g r

/-- Step (G) preserves existing media nodes. -/
theorem loadMediaRow_mono (g : BulkGraph) (r : MediaRowCsv) (k : Option Int)
    (h : mediaExists g k = true) :
    mediaExists (loadMediaRow g r) k = true := by
  unfold loadMediaRow
  split
  · rw [mediaExists_congr
      (mergeHasMediaEdge_comps (mergeMediaNode g r) (r.tweet_id, mediaKey r)).2.2.1 k]
    exact mergeMediaNode_mono g r k h
  · exact mergeMediaNode_mono g r k h

/-- Step (G) creates the `HAS_MEDIA` edge when the tweet matches. -/
theorem loadMediaRow_edge (g : BulkGraph) (r : MediaRowCsv)
    (h : tweetExists g r.tweet_id = true) :
    (r.tweet_id, mediaKey r) ∈ (loadMediaRow g r).hasMedia := by
  unfold loadMediaRow
  rw [tweetExists_congr (mergeMediaNode_comps g r).2.1 r.tweet_id, if_pos h]
  exact mergeHasMediaEdge_mem _ _

/-- Step (G) preserves existing `HAS_MEDIA` edges. -/
theorem loadMediaRow_edge_mono (g : BulkGraph) (r : MediaRowCsv)
    (q : String × Option Int) (h : q ∈ g.hasMedia) :
    q ∈ (loadMediaRow g r).hasMedia := by
  have hn : q ∈ (mergeMediaNode g r).hasMedia := by
    rw [(mergeMediaNode_comps g r).2.2.2.2.2]
    exact h
  unfold loadMediaRow
  split
  · exact mergeHasMediaEdge_mono _ _ _ hn
  · exact hn

/-- Step (G) is a per-row no-op when the media node exists and, should
the tweet match, the edge exists too. -/
theorem loadMediaRow_noop (g : BulkGraph) (r : MediaRowCsv)
    (h1 : mediaExists g (mediaKey r) = true)
    (h2 : tweetExists g r.tweet_id = true →
      (r.tweet_id, mediaKey r) ∈ g.hasMedia) : loadMediaRow g r = g := by
  unfold loadMediaRow
  rw [mergeMediaNode_noop g r h1]
  by_cases hc : tweetExists g r.tweet_id = true
  · rw [if_pos hc, mergeHasMediaEdge_noop g _ (h2 hc)]
  · rw [if_neg hc]

/-- The fold of step (G) touches only the media and hasMedia
components. -/
theorem loadMedia_comps (rows : List MediaRowCsv) : ∀ g : BulkGraph,
    (loadMedia rows g).accounts = g.accounts ∧
    (loadMedia rows g).tweets = g.tweets ∧
    (loadMedia rows g).tweeted = g.tweeted ∧
    (loadMedia rows g).follows = g.follows ∧
    (loadMedia rows g).likes = g.likes := by
  induction rows with
  | nil => intro g; exact ⟨rfl, rfl, rfl, rfl, rfl⟩
  | cons r rs ih =>
    intro g
    obtain ⟨h1, h2, h3, h4, h5⟩ := ih (loadMediaRow g r)
    obtain ⟨k1, k2, k3, k4, k5⟩ := loadMediaRow_comps g r
    exact ⟨h1.trans k1, h2.trans k2, h3.trans k3, h4.trans k4, h5.trans k5⟩

/-- The fold of step (G) preserves existing media nodes. -/
theorem loadMedia_mono (rows : List MediaRowCsv) (k : Option Int) :
    ∀ g : BulkGraph, mediaExists g k = true →
    mediaExists (loadMedia rows g) k = true := by
  induction rows with
  | nil => intro g h; exact h
  | cons r rs ih => intro g h; exact ih _ (loadMediaRow_mono g r k h)

/-- The fold of step (G) preserves existing `HAS_MEDIA` edges. -/
theorem loadMedia_edge_mono (rows : List MediaRowCsv) (q : String × Option Int) :
    ∀ g : BulkGraph, q ∈ g.hasMedia → q ∈ (loadMedia rows g).hasMedia := by
  induction rows with
  | nil => intro g h; exact h
  | cons r rs ih => intro g h; exact ih _ (loadMediaRow_edge_mono g r q h)

/-- After step (G) every media node of the CSV exists, and a `HAS_MEDIA`
edge exists for every row whose tweet matched. -/
theorem loadMedia_est (rows : List MediaRowCsv) : ∀ g : BulkGraph,
    ∀ r ∈ rows, mediaExists (loadMedia rows g) (mediaKey r) = true ∧
      (tweetExists g r.tweet_id = true →
        (r.tweet_id, mediaKey r) ∈ (loadMedia rows g).hasMedia) := by
  induction rows with
  | nil => intro g r hr; simp at hr
  | cons r0 rs ih =>
    intro g r hr
    rcases List.mem_cons.mp hr with rfl | hr
    · refine ⟨loadMedia_mono rs _ _ (loadMediaRow_self g r), fun hc => ?_⟩
      exact loadMedia_edge_mono rs _ _ (loadMediaRow_edge g r hc)
    · obtain ⟨ih1, ih2⟩ := ih (loadMediaRow g r0) r hr
      refine ⟨ih1, fun hc => ?_⟩
      apply ih2
      rw [tweetExists_congr (loadMediaRow_comps g r0).2.1 r.tweet_id]
      exact hc

/-- The fold of step (G) is a no-op when every row's media node exists
and every matched row's edge exists. -/
theorem loadMedia_noop (rows : List MediaRowCsv) : ∀ g : BulkGraph,
    (∀ r ∈ rows, mediaExists g (mediaKey r) = true ∧
      (tweetExists g r.tweet_id = true →
        (r.tweet_id, mediaKey r) ∈ g.hasMedia)) →
    loadMedia rows g = g := by
  induction rows with
  | nil => intro g _; rfl
  | cons r rs ih =>
    intro g h
    obtain ⟨h1, h2⟩ := h r (List.mem_cons_self r rs)
    calc loadMedia (r :: rs) g = loadMedia rs (loadMediaRow g r) := rfl
    _ = loadMedia rs g := by rw [loadMediaRow_noop g r h1 h2]
    _ = g := ih g (fun x hx => h x (List.mem_cons_of_mem r hx))

/-- A second bulk load over the same CSV data is the identity: every
account, tweet and media merge matches an existing node (creating
nothing and, by `ON CREATE SET`, writing nothing), every `MATCH` resolves
exactly as in the first run, and every edge merge finds its edge. -/
theorem load_data_idem (csv : CsvData) (g : BulkGraph) :
    load_data_into_neo4j csv (load_data_into_neo4j csv g)
      = load_data_into_neo4j csv g := by
  unfold load_data_into_neo4j
  set a1 := loadAccounts csv.account g with ha1
  set t1 := loadTweets csv.tweets a1 with ht1
  set d1 := loadFollowers csv.followers t1 with hd1
  set e1 := loadFollowing csv.following d1 with he1
  set f1 := loadLikes csv.likes e1 with hf1
  set G1 := loadMedia csv.media f1 with hG1
  have hAccG : G1.accounts = a1.accounts := by
    rw [hG1, hf1, he1, hd1, ht1, (loadMedia_comps _ _).1, (loadLikes_comps _ _).1,
      (loadFollowing_comps _ _).1, (loadFollowers_comps _ _).1,
      (loadTweets_comps _ _).1]
  have hAcc_t : t1.accounts = a1.accounts := by
    rw [ht1, (loadTweets_comps _ _).1]
  have hAcc_d : d1.accounts = a1.accounts := by
    rw [hd1, (loadFollowers_comps _ _).1, hAcc_t]
  have hAcc_e : e1.accounts = a1.accounts := by
    rw [he1, (loadFollowing_comps _ _).1, hAcc_d]
  have hTwG : G1.tweets = t1.tweets := by
    rw [hG1, hf1, he1, hd1, (loadMedia_comps _ _).2.1, (loadLikes_comps _ _).2.1,
      (loadFollowing_comps _ _).2.1, (loadFollowers_comps _ _).2.1]
  have hTw_d : d1.tweets = t1.tweets := by
    rw [hd1, (loadFollowers_comps _ _).2.1]
  have hTw_e : e1.tweets = t1.tweets := by
    rw [he1, (loadFollowing_comps _ _).2.1, hTw_d]
  have hTwGf : G1.tweets = f1.tweets := by
    rw [hG1, (loadMedia_comps _ _).2.1]
  have hTdG : G1.tweeted = t1.tweeted := by
    rw [hG1, hf1, he1, hd1, (loadMedia_comps _ _).2.2.1,
      (loadLikes_comps _ _).2.2.2.1, (loadFollowing_comps _ _).2.2.2.1,
      (loadFollowers_comps _ _).2.2.2.1]
  have hFlG : G1.follows = e1.follows := by
    rw [hG1, hf1, (loadMedia_comps _ _).2.2.2.1, (loadLikes_comps _ _).2.2.2.2.1]
  have hLkG : G1.likes = f1.likes := by
    rw [hG1, (loadMedia_comps _ _).2.2.2.2]
  have hB : loadAccounts csv.account G1 = G1 := by
    apply loadAccounts_noop
    intro r hr
    rw [accountExists_congr hAccG r.account_id, ha1]
    exact loadAccounts_est csv.account g r hr
  have hC : loadTweets csv.tweets G1 = G1 := by
    apply loadTweets_noop
    intro r hr
    obtain ⟨hx1, hx2⟩ := loadTweets_est csv.tweets a1 r hr
    constructor
    · rw [tweetExists_congr hTwG r.tweet_id, ht1]
      exact hx1
    · intro hc
      rw [hTdG, ht1]
      apply hx2
      rw [← accountExists_congr hAccG r.account_id]
      exact hc
  have hD : loadFollowers csv.followers G1 = G1 := by
    apply loadFollowers_noop
    intro r hr hc
    rw [hFlG, he1]
    apply loadFollowing_mono
    rw [hd1]
    apply loadFollowers_est csv.followers t1 r hr
    rw [accountExists_congr (hAcc_t.trans hAccG.symm) r.account_id,
      accountExists_congr (hAcc_t.trans hAccG.symm) r.follower_account_id]
    exact hc
  have hE : loadFollowing csv.following G1 = G1 := by
    apply loadFollowing_noop
    intro r hr hc
    rw [hFlG, he1]
    apply loadFollowing_est csv.following d1 r hr
    rw [accountExists_congr (hAcc_d.trans hAccG.symm) r.account_id,
      accountExists_congr (hAcc_d.trans hAccG.symm) r.following_account_id]
    exact hc
  have hF : loadLikes csv.likes G1 = G1 := by
    apply loadLikes_noop
    intro r hr hc
    rw [hLkG, hf1]
    apply loadLikes_est csv.likes e1 r hr
    rw [accountExists_congr (hAcc_e.trans hAccG.symm) r.account_id,
      tweetExists_congr (hTw_e.trans hTwG.symm) r.liked_tweet_id]
    exact hc
  have hGm : loadMedia csv.media G1 = G1 := by
    apply loadMedia_noop
    intro r hr
    obtain ⟨hm1, hm2⟩ := loadMedia_est csv.media f1 r hr
    constructor
    · rw [hG1]
      exact hm1
    · intro hc
      rw [hG1]
      apply hm2
      rw [← tweetExists_congr hTwGf r.tweet_id]
      exact hc
  rw [hB, hC, hD, hE, hF, hGm]

/-- C6: repeated execution of the same load against the same source data
is idempotent.  For the bulk loader the second run is the identity on the
graph; for the per-row loader the second insert (with no transaction
failure) commits the same graph again.  In particular node and edge
counts do not change on the second run. -/
theorem c6_second_run_identity (csv : CsvData) (g : BulkGraph)
    (rows : List FollowerRow) (valid : List String)
    (d : List (String × Details)) (h : NeoGraph) :
    load_data_into_neo4j csv (load_data_into_neo4j csv g)
      = load_data_into_neo4j csv g ∧
    (insert_relationships_into_neo4j (fun _ => false) rows valid d
        (insert_relationships_into_neo4j (fun _ => false) rows valid d
          h).graph).graph
      = (insert_relationships_into_neo4j (fun _ => false) rows valid d
          h).graph := by
  constructor
  · exact load_data_idem csv g
  · rw [insert_no_fail (fun _ => false) rows valid d h (fun _ _ _ => rfl)]
    show (insert_relationships_into_neo4j (fun _ => false) rows valid d
      (applyRows d valid rows h)).graph = applyRows d valid rows h
    rw [insert_no_fail (fun _ => false) rows valid d (applyRows d valid rows h)
      (fun _ _ _ => rfl)]
    exact applyRows_idem d valid rows h

/-- First match for an `:Account` node by key. -/
def findAccount (g : BulkGraph) (k : String) : Option AccountNode :=
  g.accounts.find? (fun a => a.account_id == k)

/-- First match for a `:Tweet` node by key. -/
def findTweet (g : BulkGraph) (k : String) : Option TweetNode :=
  g.tweets.find? (fun t => t.tweet_id == k)

/-- First match for a `:Media` node by key. -/
def findMedia (g : BulkGraph) (k : Option Int) : Option MediaNode :=
  g.media.find? (fun m => m.media_id == k)

/-- A successful `find?` survives appending. -/
theorem list_find_append {α : Type} (l l' : List α) (p : α → Bool) (a : α)
    (h : l.find? p = some a) : (l ++ l').find? p = some a := by
  induction l with
  | nil => simp [List.find?] at h
  | cons x xs ih =>
    show List.find? p (x :: (xs ++ l')) = some a
    rw [List.find?_cons] at h ⊢
    cases hp : p x
    · simp only [hp] at h ⊢
      exact ih h
    · simp only [hp] at h ⊢
      exact h

/-- `findAccount` only depends on the accounts component. -/
theorem findAccount_congr {g g' : BulkGraph} (h : g.accounts = g'.accounts)
    (k : String) : findAccount g k = findAccount g' k := by
  unfold findAccount
  rw [h]

/-- `findTweet` only depends on the tweets component. -/
theorem findTweet_congr {g g' : BulkGraph} (h : g.tweets = g'.tweets)
    (k : String) : findTweet g k = findTweet g' k := by
  unfold findTweet
  rw [h]

/-- `findMedia` only depends on the media component. -/
theorem findMedia_congr {g g' : BulkGraph} (h : g.media = g'.media)
    (k : Option Int) : findMedia g k = findMedia g' k := by
  unfold findMedia
  rw [h]

/-- Step (B) preserves every existing account node with all its
properties (`ON CREATE SET` writes nothing on match). -/
theorem loadAccountRow_find (g : BulkGraph) (r : AccountRowCsv) (k : String)
    (n : AccountNode) (h : findAccount g k = some n) :
    findAccount (loadAccountRow g r) k = some n := by
  unfold loadAccountRow
  split
  · exact h
  · unfold findAccount at h ⊢
    exact list_find_append _ _ _ _ h

/-- The fold of step (B) preserves every existing account node. -/
theorem loadAccounts_find (rows : List AccountRowCsv) (k : String)
    (n : AccountNode) : ∀ g : BulkGraph, findAccount g k = some n →
    findAccount (loadAccounts rows g) k = some n := by
  induction rows with
  | nil => intro g h; exact h
  | cons r rs ih => intro g h; exact ih _ (loadAccountRow_find g r k n h)

/-- `mergeTweetNode` preserves every existing tweet node. -/
theorem mergeTweetNode_find (g : BulkGraph) (r : TweetRowCsv) (k : String)
    (n : TweetNode) (h : findTweet g k = some n) :
    findTweet (mergeTweetNode g r) k = some n := by
  unfold mergeTweetNode
  split
  · exact h
  · unfold findTweet at h ⊢
    exact list_find_append _ _ _ _ h

/-- Step (C) preserves every existing tweet node with all its
properties. -/
theorem loadTweetRow_find (g : BulkGraph) (r : TweetRowCsv) (k : String)
    (n : TweetNode) (h : findTweet g k = some n) :
    findTweet (loadTweetRow g r) k = some n := by
  unfold loadTweetRow
  split
  · rw [findTweet_congr
      (mergeTweetedEdge_comps (mergeTweetNode g r) (r.account_id, r.tweet_id)).2.1 k]
    exact mergeTweetNode_find g r k n h
  · exact mergeTweetNode_find g r k n h

/-- The fold of step (C) preserves every existing tweet node. -/
theorem loadTweets_find (rows : List TweetRowCsv) (k : String)
    (n : TweetNode) : ∀ g : BulkGraph, findTweet g k = some n →
    findTweet (loadTweets rows g) k = some n := by
  induction rows with
  | nil => intro g h; exact h
  | cons r rs ih => intro g h; exact ih _ (loadTweetRow_find g r k n h)

/-- `mergeMediaNode` preserves every existing media node. -/
theorem mergeMediaNode_find (g : BulkGraph) (r : MediaRowCsv)
    (k : Option Int) (n : MediaNode) (h : findMedia g k = some n) :
    findMedia (mergeMediaNode g r) k = some n := by
  unfold mergeMediaNode
  split
  · exact h
  · unfold findMedia at h ⊢
    exact list_find_append _ _ _ _ h

/-- Step (G) preserves every existing media node with all its
properties. -/
theorem loadMediaRow_find (g : BulkGraph) (r : MediaRowCsv) (k : Option Int)
    (n : MediaNode) (h : findMedia g k = some n) :
    findMedia (loadMediaRow g r) k = some n := by
  unfold loadMediaRow
  split
  · rw [findMedia_congr
      (mergeHasMediaEdge_comps (mergeMediaNode g r) (r.tweet_id, mediaKey r)).2.2.1 k]
    exact mergeMediaNode_find g r k n h
  · exact mergeMediaNode_find g r k n h

/-- The fold of step (G) preserves every existing media node. -/
theorem loadMedia_find (rows : List MediaRowCsv) (k : Option Int)
    (n : MediaNode) : ∀ g : BulkGraph, findMedia g k = some n →
    findMedia (loadMedia rows g) k = some n := by
  induction rows with
  | nil => intro g h; exact h
  | cons r rs ih => intro g h; exact ih _ (loadMediaRow_find g r k n h)

/-- C9: the two loader variants differ in their frame on existing nodes.
The bulk loader (`ON CREATE SET`) leaves every property of an
already-existing `:Account`, `:Tweet` or `:Media` node unchanged, while
the per-row loader overwrites the five descriptive properties of every
processed endpoint `:User` node with the looked-up details — whatever the
node carried before — leaving only the `id` key property untouched. -/
theorem c9_frame_contrast (csv : CsvData) (g : BulkGraph)
    (d : List (String × Details)) (valid : List String)
    (rows : List FollowerRow) (h : NeoGraph) (i : String) :
    (∀ k n, findAccount g k = some n →
      findAccount (load_data_into_neo4j csv g) k = some n) ∧
    (∀ k n, findTweet g k = some n →
      findTweet (load_data_into_neo4j csv g) k = some n) ∧
    (∀ k n, findMedia g k = some n →
      findMedia (load_data_into_neo4j csv g) k = some n) ∧
    ((∃ r ∈ rows, okRow valid r ∧
        (r.account_id = i ∨ r.follower_account_id = i)) →
      ∀ n ∈ (applyRows d valid rows h).nodes, n.id = i →
        n = mkNode i (detailsFor d i)) := by
  unfold load_data_into_neo4j
  set a1 := loadAccounts csv.account g with ha1
  set t1 := loadTweets csv.tweets a1 with ht1
  set d1 := loadFollowers csv.followers t1 with hd1
  set e1 := loadFollowing csv.following d1 with he1
  set f1 := loadLikes csv.likes e1 with hf1
  set G1 := loadMedia csv.media f1 with hG1
  have hAccG : G1.accounts = a1.accounts := by
    rw [hG1, hf1, he1, hd1, ht1, (loadMedia_comps _ _).1, (loadLikes_comps _ _).1,
      (loadFollowing_comps _ _).1, (loadFollowers_comps _ _).1,
      (loadTweets_comps _ _).1]
  have hTwG : G1.tweets = t1.tweets := by
    rw [hG1, hf1, he1, hd1, (loadMedia_comps _ _).2.1, (loadLikes_comps _ _).2.1,
      (loadFollowing_comps _ _).2.1, (loadFollowers_comps _ _).2.1]
  have hTwa : a1.tweets = g.tweets := by
    rw [ha1, (loadAccounts_comps _ _).1]
  have hMdf : f1.media = g.media := by
    rw [hf1, he1, hd1, ht1, ha1, (loadLikes_comps _ _).2.2.1,
      (loadFollowing_comps _ _).2.2.1, (loadFollowers_comps _ _).2.2.1,
      (loadTweets_comps _ _).2.1, (loadAccounts_comps _ _).2.1]
  refine ⟨?_, ?_, ?_, ?_⟩
  · intro k n hk
    rw [findAccount_congr hAccG k, ha1]
    exact loadAccounts_find csv.account k n g hk
  · intro k n hk
    rw [findTweet_congr hTwG k, ht1]
    apply loadTweets_find csv.tweets k n a1
    rw [findTweet_congr hTwa k]
    exact hk
  · intro k n hk
    rw [hG1]
    apply loadMedia_find csv.media k n f1
    rw [findMedia_congr hMdf k]
    exact hk
  · intro hr
    exact (applyRows_nodeIs d valid rows i h (Or.inr hr)).2

/-- C9 witness: a bulk load whose CSV carries a new username for an
existing account leaves the old node untouched, while the per-row loader
rewrites the username of a processed endpoint to the looked-up value. -/
theorem c9_witness :
    findAccount (load_data_into_neo4j
        ⟨[⟨"A", some "newname", none, none, none, none, none, none, none⟩],
          [], [], [], [], []⟩
        ⟨[⟨"A", some "oldname", none, none, none, some 1, none, none, none⟩],
          [], [], [], [], [], []⟩) "A"
      = some ⟨"A", some "oldname", none, none, none, some 1, none, none, none⟩ ∧
    UserNode.mk "A" (some "new") none none none none
      = mkNode "A"
          (detailsFor [("A", ⟨some "new", none, none, none, none⟩)] "A") := by
  constructor
  · exact (c9_frame_contrast
      ⟨[⟨"A", some "newname", none, none, none, none, none, none, none⟩],
        [], [], [], [], []⟩
      ⟨[⟨"A", some "oldname", none, none, none, some 1, none, none, none⟩],
        [], [], [], [], [], []⟩
      [("A", ⟨some "new", none, none, none, none⟩)] ["A", "B"]
      [⟨"A", "B"⟩] ⟨[⟨"A", some "old", some "x", some "y", some "z", some "w"⟩], []⟩
      "A").1 "A"
      ⟨"A", some "oldname", none, none, none, some 1, none, none, none⟩
      (by decide)
  · exact (c9_frame_contrast
      ⟨[⟨"A", some "newname", none, none, none, none, none, none, none⟩],
        [], [], [], [], []⟩
      ⟨[⟨"A", some "oldname", none, none, none, some 1, none, none, none⟩],
        [], [], [], [], [], []⟩
      [("A", ⟨some "new", none, none, none, none⟩)] ["A", "B"]
      [⟨"A", "B"⟩] ⟨[⟨"A", some "old", some "x", some "y", some "z", some "w"⟩], []⟩
      "A").2.2.2
      ⟨⟨"A", "B"⟩, by decide, by decide, Or.inl rfl⟩
      ⟨"A", some "new", none, none, none, none⟩ (by decide) rfl
